import Mathlib

/-!
# MPPT charger controller: charge-control state machine and sampler calibration

A shallow embedding of `FIRMWARE/MPPT/main/main.c` and `mppt.h`:

* `F64` models the C `double` values of the firmware (IEEE binary64, round to nearest even).
  Finite values are carried as rationals, every arithmetic result is rounded by `round64`.
  The sign of zero is not tracked; it could only be observed by a division by zero, and every
  division of the modelled code has a nonzero constant as divisor or runs under the guard
  `v_solar > 13.0`.
* `int32_t` members are integers; `++`, `--` and `-` wrap at 32 bits (`wrap32`).
* `charger_task_cycle` is the body of the `while (1)` loop of `charger_task` for one sample
  received from the queue (an iteration whose `xQueueReceive` times out does nothing). Calls to
  the LEDC, GPIO and task API are returned as a list of `Cmd` in program order; `hw_exec` replays
  them on the outputs. The `ESP_LOGI` lines and the `performance` figure that is computed for
  them (a diagnostic that is never read back) are left out.
* `i2c_task_sample` is the averaging and calibration part of one period of `i2c_task`.
-/

namespace MPPT

/-! ## binary64 values -/

/-- A C `double`: a finite value, an infinity, or a NaN. -/
inductive F64 where
  | fin (q : ℚ)
  | pinf
  | ninf
  | nan
deriving DecidableEq, Repr

/-- Nearest integer, ties to even. -/
def roundEven (q : ℚ) : ℤ :=
  let f : ℤ := Rat.floor q
  if q - f < 1 / 2 then f
  else if 1 / 2 < q - f then f + 1
  else if f % 2 = 0 then f else f + 1

/-- Position of the highest set bit by repeated halving: `blog2 n n` is `⌊log₂ n⌋` for `0 < n`. -/
def blog2 : ℕ → ℕ → ℕ
  | 0, _ => 0
  | fuel + 1, n => if n < 2 then 0 else blog2 fuel (n / 2) + 1

/-- For `0 < q`: the integer `e` with `2 ^ e ≤ q < 2 ^ (e + 1)`. -/
def ilog2 (q : ℚ) : ℤ :=
  let e0 : ℤ := (blog2 q.num.natAbs q.num.natAbs : ℤ) - (blog2 q.den q.den : ℤ)
  if (2 : ℚ) ^ e0 ≤ q then e0 else e0 - 1

/-- For `0 < q`: `q` rounded to 53 significant bits (to a multiple of `2 ^ (-1074)` in the
subnormal range), before the overflow check. -/
def roundMag (q : ℚ) : ℚ :=
  let e : ℤ := max (ilog2 q) (-1022)
  let u : ℚ := 2 ^ (e - 52)
  (roundEven (q / u) : ℚ) * u

/-- Round an exact result to binary64 (round to nearest, ties to even, overflow to infinity). -/
def round64 (q : ℚ) : F64 :=
  if q = 0 then F64.fin 0
  else if 0 < q then (if roundMag q < 2 ^ 1024 then F64.fin (roundMag q) else F64.pinf)
  else (if roundMag (-q) < 2 ^ 1024 then F64.fin (-(roundMag (-q))) else F64.ninf)

namespace F64

/-- A decimal floating constant of the source, e.g. `12.9`. -/
def lit (q : ℚ) : F64 := round64 q

/-- Conversion of an integer constant to `double`. -/
def ofInt (n : ℤ) : F64 := round64 n

def isFinite : F64 → Bool
  | fin _ => true
  | _ => false

/-- Sign bit of a non-NaN value (zero counts as positive). -/
def isNeg : F64 → Bool
  | fin q => decide (q < 0)
  | ninf => true
  | _ => false

def isZero : F64 → Bool
  | fin q => decide (q = 0)
  | _ => false

def signedInf (negative : Bool) : F64 := if negative then ninf else pinf

def neg : F64 → F64
  | fin q => fin (-q)
  | pinf => ninf
  | ninf => pinf
  | nan => nan

def add : F64 → F64 → F64
  | fin a, fin b => round64 (a + b)
  | nan, _ => nan
  | _, nan => nan
  | pinf, ninf => nan
  | ninf, pinf => nan
  | pinf, _ => pinf
  | ninf, _ => ninf
  | fin _, pinf => pinf
  | fin _, ninf => ninf

def sub (a b : F64) : F64 := add a (neg b)

def mul : F64 → F64 → F64
  | fin a, fin b => round64 (a * b)
  | nan, _ => nan
  | _, nan => nan
  | a, b => if a.isZero || b.isZero then nan else signedInf (a.isNeg != b.isNeg)

def div : F64 → F64 → F64
  | fin a, fin b =>
    if b = 0 then (if a = 0 then nan else signedInf (decide (a < 0)))
    else round64 (a / b)
  | nan, _ => nan
  | _, nan => nan
  | fin _, _ => fin 0
  | a, fin b => signedInf (a.isNeg != decide (b < 0))
  | _, _ => nan

/-- C `a < b` on doubles (false when either side is NaN). -/
def lt : F64 → F64 → Bool
  | fin a, fin b => decide (a < b)
  | nan, _ => false
  | _, nan => false
  | pinf, _ => false
  | _, ninf => false
  | _, _ => true

/-- C `a <= b` on doubles (false when either side is NaN). -/
def le : F64 → F64 → Bool
  | fin a, fin b => decide (a ≤ b)
  | nan, _ => false
  | _, nan => false
  | ninf, _ => true
  | _, pinf => true
  | _, _ => false

/-- C `a > b`. -/
def gt (a b : F64) : Bool := lt b a

/-- C `a >= b`. -/
def ge (a b : F64) : Bool := le b a

/-- The 32-bit range check of a conversion `(int32_t) x`: the truncated value is representable. -/
def fitsInt32 : F64 → Bool
  | fin q => decide (-(2 : ℚ) ^ 31 - 1 < q ∧ q < 2 ^ 31)
  | _ => false

/-- The conversion `(int32_t) x`: truncation toward zero. Outside the 32-bit range (undefined in
C) the value saturates, NaN giving the largest integer, as the soft-float conversion of the
target does. -/
def toInt32 : F64 → ℤ
  | fin q =>
    let t : ℤ := if 0 ≤ q then Rat.floor q else -Rat.floor (-q)
    if t > 2 ^ 31 - 1 then 2 ^ 31 - 1 else if t < -2 ^ 31 then -2 ^ 31 else t
  | ninf => -2 ^ 31
  | _ => 2 ^ 31 - 1

end F64

/-! ## machine integers -/

/-- Two's complement wrap of an `int32_t` result. -/
def wrap32 (x : ℤ) : ℤ := (x + 2 ^ 31) % 2 ^ 32 - 2 ^ 31

/-- Conversion to `uint32_t` (the duty argument of `ledc_set_duty`, the level of
`gpio_set_level`). -/
def u32 (x : ℤ) : ℤ := x % 2 ^ 32

/-! ## mppt.h -/

def DUTY_MIN : ℤ := 40
def DUTY_MAX : ℤ := 90

def SOLAR_VOLTAGE_OFFSET : F64 := F64.lit 0
def SOLAR_CURRENT_OFFSET : F64 := F64.ofInt 0
def BATTERY_VOLTAGE_OFFSET : F64 := F64.ofInt 0
def BATTERY_CURRENT_OFFSET : F64 := F64.lit (6 / 100)

structure adc_struct_t where
  v_solar : F64
  i_solar : F64
  v_bat : F64
  i_bat : F64
  power_solar : F64
  power_bat : F64
deriving DecidableEq, Repr

/-- The controller record of `mppt.h` (without the `performance` diagnostic). -/
structure charger_mppt_t where
  adc_val : adc_struct_t
  min_duty : ℤ
  max_duty : ℤ
  pre_power_solar : F64
  pre_power_bat : F64
  delta_P : F64
  pre_duty : ℤ
  cur_duty : ℤ
  delta_D : ℤ
  delta_V : F64
  pre_voltage_solar : F64
  cur_voltage_solar : F64
  i_float_rate_bat : F64
  v_cccv_rate_bat : F64
  i_cccv_rate_bat : F64
deriving DecidableEq, Repr

/-! ## outputs -/

inductive Pin where
  | RELAY
  | MPPT_EN
deriving DecidableEq, Repr

/-- The calls the charger task makes on the LEDC, GPIO and task API. `vTaskDelay` carries the
delay in milliseconds (the numerator of the tick count). -/
inductive Cmd where
  | ledc_set_duty (duty : ℤ)
  | ledc_update_duty
  | gpio_set_level (pin : Pin) (level : ℤ)
  | vTaskSuspend
  | vTaskResume
  | vTaskDelay (ms : ℕ)
deriving DecidableEq, Repr

/-- `switch_source`: relay and converter enable are driven to the same level. -/
def switch_source (state : ℤ) : List Cmd :=
  [Cmd.gpio_set_level Pin.RELAY (u32 state), Cmd.gpio_set_level Pin.MPPT_EN (u32 state)]

/-- Levels of the two power-path pins and the LEDC duty (written, and committed). -/
structure hw_state where
  relay : ℤ
  mppt_en : ℤ
  duty_reg : ℤ
  duty_out : ℤ
deriving DecidableEq, Repr

/-- Outputs after `setupGPIO` (both pins low) and `setupPWM` (channel duty 1). -/
def hw_init : hw_state :=
  { relay := 0, mppt_en := 0, duty_reg := 1, duty_out := 1 }

def hw_exec (h : hw_state) : Cmd → hw_state
  | Cmd.ledc_set_duty d => { h with duty_reg := d }
  | Cmd.ledc_update_duty => { h with duty_out := h.duty_reg }
  | Cmd.gpio_set_level Pin.RELAY l => { h with relay := l }
  | Cmd.gpio_set_level Pin.MPPT_EN l => { h with mppt_en := l }
  | _ => h

/-- The power path is closed when relay and converter enable are both on. -/
def hw_state.path_closed (h : hw_state) : Prop := h.relay = 1 ∧ h.mppt_en = 1

/-- The power path is open when relay and converter enable are both off. -/
def hw_state.path_open (h : hw_state) : Prop := h.relay = 0 ∧ h.mppt_en = 0

/-! ## main.c: mppt_algorithm -/

def mppt_algorithm (charger_mppt : charger_mppt_t) : charger_mppt_t :=
  let power_solar := F64.mul charger_mppt.adc_val.v_solar charger_mppt.adc_val.i_solar
  let power_bat := F64.mul charger_mppt.adc_val.v_bat charger_mppt.adc_val.i_bat
  let delta_P := F64.sub power_solar charger_mppt.pre_power_solar
  let delta_D := wrap32 (charger_mppt.cur_duty - charger_mppt.pre_duty)
  let delta_V := F64.sub charger_mppt.cur_voltage_solar charger_mppt.pre_voltage_solar
  let pre_duty := charger_mppt.cur_duty
  let cur_duty :=
    if F64.ge delta_P (F64.ofInt 0) then
      if delta_D ≥ 0 then wrap32 (charger_mppt.cur_duty + 1)
      else wrap32 (charger_mppt.cur_duty - 1)
    else
      if delta_D ≥ 0 then wrap32 (charger_mppt.cur_duty - 1)
      else wrap32 (charger_mppt.cur_duty + 1)
  { charger_mppt with
    adc_val := { charger_mppt.adc_val with power_solar := power_solar, power_bat := power_bat }
    delta_P := delta_P
    delta_D := delta_D
    delta_V := delta_V
    pre_duty := pre_duty
    cur_duty := cur_duty
    pre_power_solar := power_solar
    pre_power_bat := power_bat }

/-! ## main.c: charger_task -/

/-- The local variables of `charger_task` that live across loop iterations. -/
structure task_state where
  charger_mppt : charger_mppt_t
  setup_charger : Bool
deriving DecidableEq, Repr

def adc_zero : adc_struct_t :=
  { v_solar := F64.fin 0, i_solar := F64.fin 0, v_bat := F64.fin 0, i_bat := F64.fin 0,
    power_solar := F64.fin 0, power_bat := F64.fin 0 }

/-- The variable definitions at the top of `charger_task`; members that the initializer does not
name are zero. -/
def task_init : task_state :=
  { setup_charger := false
    charger_mppt :=
      { adc_val := adc_zero
        min_duty := Int.tdiv (DUTY_MIN * 1023) 100
        max_duty := Int.tdiv (DUTY_MAX * 1023) 100
        pre_power_solar := F64.fin 0
        pre_power_bat := F64.fin 0
        delta_P := F64.fin 0
        pre_duty := 0
        cur_duty := 0
        delta_D := 0
        delta_V := F64.fin 0
        pre_voltage_solar := F64.ofInt 0
        cur_voltage_solar := F64.fin 0
        i_float_rate_bat := F64.lit (1 / 10)
        v_cccv_rate_bat := F64.lit (129 / 10)
        i_cccv_rate_bat := F64.lit (15 / 10) } }

/-- The clamp of `cur_duty` to `[min_duty, max_duty]` that precedes both `ledc_set_duty` calls. -/
def clamp_duty (c : charger_mppt_t) : charger_mppt_t :=
  if c.cur_duty > c.max_duty then { c with cur_duty := c.max_duty }
  else if c.cur_duty < c.min_duty then { c with cur_duty := c.min_duty }
  else c

/-- The double `(v_bat / v_solar) * 1023` of the initial duty estimate. -/
def duty_ratio (a : adc_struct_t) : F64 :=
  F64.mul (F64.div a.v_bat a.v_solar) (F64.ofInt 1023)

/-- The initial duty estimate `(int32_t)((v_bat / v_solar) * 1023)`. -/
def duty_estimate (a : adc_struct_t) : ℤ :=
  F64.toInt32 (duty_ratio a)

/-- The branch `setup_charger == false` of the loop body. -/
def charger_setup (c : charger_mppt_t) : task_state × List Cmd :=
  if F64.gt c.adc_val.v_solar (F64.lit 13) && F64.gt c.adc_val.v_bat (F64.lit 11) then
    let c := { c with cur_duty := duty_estimate c.adc_val }
    let c := clamp_duty c
    ({ charger_mppt := c, setup_charger := true },
      [Cmd.vTaskSuspend, Cmd.ledc_set_duty (u32 c.cur_duty), Cmd.ledc_update_duty,
        Cmd.vTaskDelay 3000] ++ switch_source 1 ++ [Cmd.vTaskDelay 500, Cmd.vTaskResume])
  else if F64.gt c.adc_val.v_solar (F64.lit 13) && F64.lt c.adc_val.v_bat (F64.lit 10) then
    ({ charger_mppt := c, setup_charger := false }, [])
  else if F64.lt c.adc_val.v_solar (F64.lit 13) && F64.gt c.adc_val.v_bat (F64.lit 10) then
    ({ charger_mppt := c, setup_charger := false }, [])
  else
    ({ charger_mppt := c, setup_charger := false }, [])

/-- The region decision of the branch `setup_charger == true`, up to the clamp. -/
def charger_regulate (c : charger_mppt_t) : charger_mppt_t × List Cmd :=
  if F64.ge c.adc_val.v_bat c.v_cccv_rate_bat then
    if F64.le c.adc_val.i_bat c.i_float_rate_bat then (c, switch_source 0)
    else ({ c with cur_duty := wrap32 (c.cur_duty - 1) }, [])
  else
    if F64.le c.adc_val.i_bat c.i_cccv_rate_bat then (mppt_algorithm c, [])
    else ({ c with cur_duty := wrap32 (c.cur_duty - 1) }, [])

/-- The branch `setup_charger == true` of the loop body. -/
def charger_charge (c : charger_mppt_t) : task_state × List Cmd :=
  let setup_charger : Bool :=
    if F64.le c.adc_val.v_solar (F64.lit 13) || F64.le c.adc_val.v_bat (F64.lit 11) then false
    else true
  let r := charger_regulate c
  let c := clamp_duty r.1
  ({ charger_mppt := c, setup_charger := setup_charger },
    r.2 ++ [Cmd.ledc_set_duty (u32 c.cur_duty), Cmd.ledc_update_duty])

/-- One iteration of the `while (1)` loop of `charger_task` in which `xQueueReceive` returned a
sample. -/
def charger_task_cycle (st : task_state) (adc_rcv : adc_struct_t) : task_state × List Cmd :=
  let c := { st.charger_mppt with adc_val := adc_rcv }
  if st.setup_charger = false then charger_setup c
  else charger_charge c

/-- The task state after a sequence of received samples. -/
def charger_run (st : task_state) : List adc_struct_t → task_state
  | [] => st
  | x :: xs => charger_run (charger_task_cycle st x).1 xs

/-- All the calls issued while processing a sequence of samples, in order. -/
def charger_trace (st : task_state) : List adc_struct_t → List Cmd
  | [] => []
  | x :: xs => (charger_task_cycle st x).2 ++ charger_trace (charger_task_cycle st x).1 xs

/-- The outputs after a sequence of samples. -/
def hw_run (h : hw_state) (st : task_state) (xs : List adc_struct_t) : hw_state :=
  (charger_trace st xs).foldl hw_exec h

/-- Both sources present: the condition `v_solar > 13.0 && v_bat > 11.0`. -/
def sources_present (a : adc_struct_t) : Bool :=
  F64.gt a.v_solar (F64.lit 13) && F64.gt a.v_bat (F64.lit 11)

/-- A valid sample: the four readings are finite and, when the sample lets the controller
connect, the initial duty estimate fits a 32-bit integer. -/
def adc_struct_t.valid (a : adc_struct_t) : Bool :=
  a.v_solar.isFinite && a.i_solar.isFinite && a.v_bat.isFinite && a.i_bat.isFinite &&
    (!sources_present a || (duty_ratio a).fitsInt32)

/-- The task states that `charger_task` can be in at the top of a loop iteration. -/
inductive Reachable : task_state → Prop where
  | init : Reachable task_init
  | cycle (st : task_state) (x : adc_struct_t) :
      Reachable st → Reachable (charger_task_cycle st x).1

/-- What holds of every reachable task state: the configuration members keep their initial
values, and the duty members are either still zero or within the duty bounds. -/
structure Inv (st : task_state) : Prop where
  min_duty : st.charger_mppt.min_duty = 409
  max_duty : st.charger_mppt.max_duty = 920
  i_float : st.charger_mppt.i_float_rate_bat = F64.lit (1 / 10)
  v_cccv : st.charger_mppt.v_cccv_rate_bat = F64.lit (129 / 10)
  i_cccv : st.charger_mppt.i_cccv_rate_bat = F64.lit (15 / 10)
  cur_duty : st.charger_mppt.cur_duty = 0 ∨
    (409 ≤ st.charger_mppt.cur_duty ∧ st.charger_mppt.cur_duty ≤ 920)
  connected : st.setup_charger = true →
    409 ≤ st.charger_mppt.cur_duty ∧ st.charger_mppt.cur_duty ≤ 920
  pre_duty : st.charger_mppt.pre_duty = 0 ∨
    (409 ≤ st.charger_mppt.pre_duty ∧ st.charger_mppt.pre_duty ≤ 920)

/-- The duty is within the configured bounds `[409, 920]`. -/
def duty_bounded (st : task_state) : Prop :=
  409 ≤ st.charger_mppt.cur_duty ∧ st.charger_mppt.cur_duty ≤ 920

/-! ## main.c: i2c_task -/

/-- The four driver results of one sub-reading, after the conversion to `double`:
bus voltage (mV) and current (uA) of the solar monitor `INA226_01` and of the battery monitor
`INA226_02`. -/
structure ina226_reading where
  bus_voltage_01 : F64
  current_01 : F64
  bus_voltage_02 : F64
  current_02 : F64
deriving DecidableEq, Repr

/-- The body of the `for` loop of `i2c_task`. -/
def i2c_accumulate (adc_send : adc_struct_t) (r : ina226_reading) : adc_struct_t :=
  let a := adc_send
  let a := { a with v_solar := F64.add a.v_solar (F64.div r.bus_voltage_01 (F64.lit 1000)) }
  let a := { a with i_solar := F64.add a.i_solar (F64.div r.current_01 (F64.lit 1000000)) }
  let a := { a with v_bat := F64.add a.v_bat (F64.div r.bus_voltage_02 (F64.lit 1000)) }
  { a with i_bat := F64.add a.i_bat (F64.div r.current_02 (F64.lit 1000000)) }

/-- The sums of the sub-readings (the task takes ten), starting from the zeroed record. -/
def i2c_sum (rs : List ina226_reading) : adc_struct_t :=
  rs.foldl i2c_accumulate adc_zero

/-- Averaging, calibration offsets and power of one sampling period of `i2c_task`: the record
that is sent to the queue. -/
def i2c_task_sample (rs : List ina226_reading) : adc_struct_t :=
  let a := i2c_sum rs
  let a := { a with v_solar := F64.div a.v_solar (F64.lit 10) }
  let a := if F64.gt a.v_solar SOLAR_VOLTAGE_OFFSET then
    { a with v_solar := F64.sub a.v_solar SOLAR_VOLTAGE_OFFSET } else a
  let a := { a with i_solar := F64.div a.i_solar (F64.lit 10) }
  let a := if F64.gt a.i_solar SOLAR_CURRENT_OFFSET then
    { a with i_solar := F64.sub a.i_solar SOLAR_CURRENT_OFFSET } else a
  let a := { a with v_bat := F64.div a.v_bat (F64.lit 10) }
  let a := if F64.gt a.v_bat BATTERY_VOLTAGE_OFFSET then
    { a with v_bat := F64.sub a.v_bat BATTERY_VOLTAGE_OFFSET } else a
  let a := { a with i_bat := F64.div a.i_bat (F64.lit 10) }
  let a := if F64.gt a.i_bat BATTERY_CURRENT_OFFSET then
    { a with i_bat := F64.sub a.i_bat BATTERY_CURRENT_OFFSET } else a
  let a := { a with power_solar := F64.mul a.v_solar a.i_solar }
  { a with power_bat := F64.mul a.v_bat a.i_bat }

/-! ## sample inputs -/

/-- A sample with the given readings (decimal constants) and the powers the sampler derives. -/
def sample (v_solar i_solar v_bat i_bat : ℚ) : adc_struct_t :=
  { v_solar := F64.lit v_solar, i_solar := F64.lit i_solar, v_bat := F64.lit v_bat,
    i_bat := F64.lit i_bat, power_solar := F64.mul (F64.lit v_solar) (F64.lit i_solar),
    power_bat := F64.mul (F64.lit v_bat) (F64.lit i_bat) }

/-- The sample that lets the controller connect (`v_solar = 13.5`, `v_bat = 11.5`). -/
def sample_connect : adc_struct_t := sample (27 / 2) 1 (23 / 2) 1

/-- A sample without solar input (`v_solar = 12.0`, `v_bat = 11.5`). -/
def sample_no_solar : adc_struct_t := sample 12 1 (23 / 2) 1

/-- A bulk-region sample (`v_bat = 12.0`, `i_bat = 1.0`). -/
def sample_bulk : adc_struct_t := sample (27 / 2) 1 12 1

/-- An over-current sample (`v_bat = 12.0`, `i_bat = 2.0`). -/
def sample_overcurrent : adc_struct_t := sample (27 / 2) 1 12 2

/-- A taper-region sample (`v_bat = 13.0`, `i_bat = 0.5`). -/
def sample_taper : adc_struct_t := sample (27 / 2) 1 13 (1 / 2)

/-- A float-region sample (`v_bat = 13.0`, `i_bat = 0.05`). -/
def sample_float : adc_struct_t := sample (27 / 2) 1 13 (1 / 20)

/-- A float-region sample taken while the solar input is low (`v_solar = 12.0`, `v_bat = 13.0`,
`i_bat = 0.05`). -/
def sample_float_no_solar : adc_struct_t := sample 12 1 13 (1 / 20)

/-- The task state after the first sample was `sample_connect`: connected, duty 871. -/
def st_connected : task_state := (charger_task_cycle task_init sample_connect).1

/-- A connecting sample with a low voltage ratio (`v_solar = 40.0`, `v_bat = 11.5`): the duty
estimate 294 is raised to `min_duty`. -/
def sample_high_solar : adc_struct_t := sample 40 1 (23 / 2) 1

/-- Ten equal sub-readings: 13.5 V and 1 A on the solar monitor, 11.5 V and 0.5 A on the battery
monitor. -/
def readings_example : List ina226_reading :=
  List.replicate 10
    { bus_voltage_01 := F64.fin 13500, current_01 := F64.fin 1000000,
      bus_voltage_02 := F64.fin 11500, current_02 := F64.fin 500000 }

/-- A bulk-region sample with finite readings whose solar power overflows
(`v_solar = 13.5`, `i_solar = 1e308`, `v_bat = 12.0`, `i_bat = 1.0`). -/
def sample_overflow : adc_struct_t := sample (27 / 2) (10 ^ 308) 12 1

/-- The number of cycles a repeated bulk-region sample with `delta_P = 0` still needs to bring
`cur_duty` to 920: the remaining climb when the last step did not go down
(`pre_duty <= cur_duty`), otherwise the descent to 409, the turn at the clamp and the whole
climb. -/
def settle_rank (c : charger_mppt_t) : ℤ :=
  if c.pre_duty ≤ c.cur_duty then 920 - c.cur_duty else c.cur_duty - 409 + 512

/-- The connected states in which the sample `x` finds its own solar power stored as the
previous power: those a bulk cycle on `x` leaves behind. -/
def Steady (x : adc_struct_t) (st : task_state) : Prop :=
  Inv st ∧ st.setup_charger = true ∧
    st.charger_mppt.pre_power_solar = F64.mul x.v_solar x.i_solar

/-! ## basic facts about the machine integers, the clamp and `mppt_algorithm` -/

theorem wrap32_eq {x : ℤ} (h1 : -2147483648 ≤ x) (h2 : x < 2147483648) : wrap32 x = x := by
  unfold wrap32; omega

theorem u32_eq {x : ℤ} (h1 : 0 ≤ x) (h2 : x < 4294967296) : u32 x = x := by
  unfold u32; omega

theorem lit_13 : F64.lit 13 = F64.fin 13 := by decide!
theorem lit_11 : F64.lit 11 = F64.fin 11 := by decide!
theorem ofInt_0 : F64.ofInt 0 = F64.fin 0 := by decide!

theorem clamp_duty_eq (c : charger_mppt_t) :
    clamp_duty c = { c with cur_duty :=
      if c.cur_duty > c.max_duty then c.max_duty
      else if c.cur_duty < c.min_duty then c.min_duty else c.cur_duty } := by
  unfold clamp_duty; split_ifs <;> rfl

theorem clamp_duty_bounds (c : charger_mppt_t) (h : c.min_duty ≤ c.max_duty) :
    c.min_duty ≤ (clamp_duty c).cur_duty ∧ (clamp_duty c).cur_duty ≤ c.max_duty := by
  rw [clamp_duty_eq]; dsimp only; split_ifs <;> omega

theorem clamp_duty_id (c : charger_mppt_t) (h1 : c.min_duty ≤ c.cur_duty)
    (h2 : c.cur_duty ≤ c.max_duty) : clamp_duty c = c := by
  unfold clamp_duty; split_ifs <;> first | rfl | omega

theorem mppt_algorithm_eq (c : charger_mppt_t) :
    mppt_algorithm c =
      { c with
        adc_val := { c.adc_val with
          power_solar := F64.mul c.adc_val.v_solar c.adc_val.i_solar
          power_bat := F64.mul c.adc_val.v_bat c.adc_val.i_bat }
        delta_P := F64.sub (F64.mul c.adc_val.v_solar c.adc_val.i_solar) c.pre_power_solar
        delta_D := wrap32 (c.cur_duty - c.pre_duty)
        delta_V := F64.sub c.cur_voltage_solar c.pre_voltage_solar
        pre_duty := c.cur_duty
        cur_duty :=
          if F64.ge (F64.sub (F64.mul c.adc_val.v_solar c.adc_val.i_solar) c.pre_power_solar)
              (F64.ofInt 0) = true then
            (if 0 ≤ wrap32 (c.cur_duty - c.pre_duty) then wrap32 (c.cur_duty + 1)
              else wrap32 (c.cur_duty - 1))
          else
            (if 0 ≤ wrap32 (c.cur_duty - c.pre_duty) then wrap32 (c.cur_duty - 1)
              else wrap32 (c.cur_duty + 1))
        pre_power_solar := F64.mul c.adc_val.v_solar c.adc_val.i_solar
        pre_power_bat := F64.mul c.adc_val.v_bat c.adc_val.i_bat } := rfl

/-! ## the loop body by cases, and the invariant of reachable states -/

theorem inv_init : Inv task_init := by
  constructor <;> first | rfl | decide

theorem cycle_disconnected (c : charger_mppt_t) (x : adc_struct_t) :
    charger_task_cycle { charger_mppt := c, setup_charger := false } x =
      if sources_present x then
        ({ charger_mppt := clamp_duty { c with adc_val := x, cur_duty := duty_estimate x },
           setup_charger := true },
          [Cmd.vTaskSuspend,
            Cmd.ledc_set_duty
              (u32 (clamp_duty { c with adc_val := x, cur_duty := duty_estimate x }).cur_duty),
            Cmd.ledc_update_duty, Cmd.vTaskDelay 3000,
            Cmd.gpio_set_level Pin.RELAY 1, Cmd.gpio_set_level Pin.MPPT_EN 1,
            Cmd.vTaskDelay 500, Cmd.vTaskResume])
      else ({ charger_mppt := { c with adc_val := x }, setup_charger := false }, []) := by
  simp only [charger_task_cycle, charger_setup, sources_present, switch_source]
  split_ifs <;> rfl

theorem cycle_connected (c : charger_mppt_t) (x : adc_struct_t) :
    charger_task_cycle { charger_mppt := c, setup_charger := true } x =
      charger_charge { c with adc_val := x } := by
  simp [charger_task_cycle]


theorem regulate_cases (c : charger_mppt_t) :
    charger_regulate c = (c, switch_source 0) ∨
    charger_regulate c = ({ c with cur_duty := wrap32 (c.cur_duty - 1) }, []) ∨
    charger_regulate c = (mppt_algorithm c, []) := by
  unfold charger_regulate
  split_ifs <;> simp

theorem charge_state (c : charger_mppt_t) :
    (charger_charge c).1.charger_mppt = clamp_duty (charger_regulate c).1 := rfl

theorem charge_cmds (c : charger_mppt_t) :
    (charger_charge c).2 = (charger_regulate c).2 ++
      [Cmd.ledc_set_duty (u32 (clamp_duty (charger_regulate c).1).cur_duty),
        Cmd.ledc_update_duty] := rfl

theorem charge_flag (c : charger_mppt_t) :
    (charger_charge c).1.setup_charger =
      !(F64.le c.adc_val.v_solar (F64.lit 13) || F64.le c.adc_val.v_bat (F64.lit 11)) := by
  simp only [charger_charge]
  split_ifs with h <;> simp [h]

@[simp] theorem clamp_duty_adc_val (c : charger_mppt_t) :
    (clamp_duty c).adc_val = c.adc_val := by
  rw [clamp_duty_eq]

@[simp] theorem clamp_duty_min_duty (c : charger_mppt_t) :
    (clamp_duty c).min_duty = c.min_duty := by
  rw [clamp_duty_eq]

@[simp] theorem clamp_duty_max_duty (c : charger_mppt_t) :
    (clamp_duty c).max_duty = c.max_duty := by
  rw [clamp_duty_eq]

@[simp] theorem clamp_duty_pre_power_solar (c : charger_mppt_t) :
    (clamp_duty c).pre_power_solar = c.pre_power_solar := by
  rw [clamp_duty_eq]

@[simp] theorem clamp_duty_pre_power_bat (c : charger_mppt_t) :
    (clamp_duty c).pre_power_bat = c.pre_power_bat := by
  rw [clamp_duty_eq]

@[simp] theorem clamp_duty_delta_P (c : charger_mppt_t) :
    (clamp_duty c).delta_P = c.delta_P := by
  rw [clamp_duty_eq]

@[simp] theorem clamp_duty_pre_duty (c : charger_mppt_t) :
    (clamp_duty c).pre_duty = c.pre_duty := by
  rw [clamp_duty_eq]

@[simp] theorem clamp_duty_delta_D (c : charger_mppt_t) :
    (clamp_duty c).delta_D = c.delta_D := by
  rw [clamp_duty_eq]

@[simp] theorem clamp_duty_delta_V (c : charger_mppt_t) :
    (clamp_duty c).delta_V = c.delta_V := by
  rw [clamp_duty_eq]

@[simp] theorem clamp_duty_pre_voltage_solar (c : charger_mppt_t) :
    (clamp_duty c).pre_voltage_solar = c.pre_voltage_solar := by
  rw [clamp_duty_eq]

@[simp] theorem clamp_duty_cur_voltage_solar (c : charger_mppt_t) :
    (clamp_duty c).cur_voltage_solar = c.cur_voltage_solar := by
  rw [clamp_duty_eq]

@[simp] theorem clamp_duty_i_float_rate_bat (c : charger_mppt_t) :
    (clamp_duty c).i_float_rate_bat = c.i_float_rate_bat := by
  rw [clamp_duty_eq]

@[simp] theorem clamp_duty_v_cccv_rate_bat (c : charger_mppt_t) :
    (clamp_duty c).v_cccv_rate_bat = c.v_cccv_rate_bat := by
  rw [clamp_duty_eq]

@[simp] theorem clamp_duty_i_cccv_rate_bat (c : charger_mppt_t) :
    (clamp_duty c).i_cccv_rate_bat = c.i_cccv_rate_bat := by
  rw [clamp_duty_eq]

@[simp] theorem mppt_algorithm_min_duty (c : charger_mppt_t) :
    (mppt_algorithm c).min_duty = c.min_duty := by
  rw [mppt_algorithm_eq]

@[simp] theorem mppt_algorithm_max_duty (c : charger_mppt_t) :
    (mppt_algorithm c).max_duty = c.max_duty := by
  rw [mppt_algorithm_eq]

@[simp] theorem mppt_algorithm_pre_voltage_solar (c : charger_mppt_t) :
    (mppt_algorithm c).pre_voltage_solar = c.pre_voltage_solar := by
  rw [mppt_algorithm_eq]

@[simp] theorem mppt_algorithm_cur_voltage_solar (c : charger_mppt_t) :
    (mppt_algorithm c).cur_voltage_solar = c.cur_voltage_solar := by
  rw [mppt_algorithm_eq]

@[simp] theorem mppt_algorithm_i_float_rate_bat (c : charger_mppt_t) :
    (mppt_algorithm c).i_float_rate_bat = c.i_float_rate_bat := by
  rw [mppt_algorithm_eq]

@[simp] theorem mppt_algorithm_v_cccv_rate_bat (c : charger_mppt_t) :
    (mppt_algorithm c).v_cccv_rate_bat = c.v_cccv_rate_bat := by
  rw [mppt_algorithm_eq]

@[simp] theorem mppt_algorithm_i_cccv_rate_bat (c : charger_mppt_t) :
    (mppt_algorithm c).i_cccv_rate_bat = c.i_cccv_rate_bat := by
  rw [mppt_algorithm_eq]

@[simp] theorem mppt_algorithm_pre_duty (c : charger_mppt_t) :
    (mppt_algorithm c).pre_duty = c.cur_duty := by
  rw [mppt_algorithm_eq]

theorem clamp_duty_range (c : charger_mppt_t) (h1 : c.min_duty = 409) (h2 : c.max_duty = 920) :
    409 ≤ (clamp_duty c).cur_duty ∧ (clamp_duty c).cur_duty ≤ 920 := by
  have h := clamp_duty_bounds c (by omega)
  omega

@[simp] theorem regulate_min_duty (c : charger_mppt_t) :
    (charger_regulate c).1.min_duty = c.min_duty := by
  rcases regulate_cases c with h | h | h <;> simp [h]

@[simp] theorem regulate_max_duty (c : charger_mppt_t) :
    (charger_regulate c).1.max_duty = c.max_duty := by
  rcases regulate_cases c with h | h | h <;> simp [h]

@[simp] theorem regulate_i_float_rate_bat (c : charger_mppt_t) :
    (charger_regulate c).1.i_float_rate_bat = c.i_float_rate_bat := by
  rcases regulate_cases c with h | h | h <;> simp [h]

@[simp] theorem regulate_v_cccv_rate_bat (c : charger_mppt_t) :
    (charger_regulate c).1.v_cccv_rate_bat = c.v_cccv_rate_bat := by
  rcases regulate_cases c with h | h | h <;> simp [h]

@[simp] theorem regulate_i_cccv_rate_bat (c : charger_mppt_t) :
    (charger_regulate c).1.i_cccv_rate_bat = c.i_cccv_rate_bat := by
  rcases regulate_cases c with h | h | h <;> simp [h]

theorem regulate_pre_duty (c : charger_mppt_t) :
    (charger_regulate c).1.pre_duty = c.pre_duty ∨
      (charger_regulate c).1.pre_duty = c.cur_duty := by
  rcases regulate_cases c with h | h | h <;> simp [h]

theorem inv_cycle (st : task_state) (x : adc_struct_t) (h : Inv st) :
    Inv (charger_task_cycle st x).1 := by
  obtain ⟨c, b⟩ := st
  obtain ⟨h1, h2, h3, h4, h5, h6, h7, h8⟩ := h
  dsimp only at h1 h2 h3 h4 h5 h6 h7 h8
  cases b
  · rw [cycle_disconnected]
    split_ifs
    · have hb := clamp_duty_range { c with adc_val := x, cur_duty := duty_estimate x } h1 h2
      constructor
      all_goals first
        | exact Or.inr hb
        | exact fun _ => hb
        | (simp only [clamp_duty_min_duty, clamp_duty_max_duty, clamp_duty_i_float_rate_bat,
            clamp_duty_v_cccv_rate_bat, clamp_duty_i_cccv_rate_bat, clamp_duty_pre_duty]
           assumption)
    · constructor <;> assumption
  · rw [cycle_connected]
    have hc := h7 rfl
    have hb := clamp_duty_range (charger_regulate { c with adc_val := x }).1
      (by simp [h1]) (by simp [h2])
    constructor
    all_goals simp only [charge_state]
    all_goals first
      | exact Or.inr hb
      | exact fun _ => hb
      | (simp only [clamp_duty_min_duty, clamp_duty_max_duty, clamp_duty_i_float_rate_bat,
          clamp_duty_v_cccv_rate_bat, clamp_duty_i_cccv_rate_bat, regulate_min_duty,
          regulate_max_duty, regulate_i_float_rate_bat, regulate_v_cccv_rate_bat,
          regulate_i_cccv_rate_bat]
         assumption)
      | (rw [clamp_duty_pre_duty]
         rcases regulate_pre_duty { c with adc_val := x } with hp | hp
         · rw [hp]; exact h8
         · rw [hp]; exact Or.inr hc)

theorem inv_reachable {st : task_state} (h : Reachable st) : Inv st := by
  induction h with
  | init => exact inv_init
  | cycle st x _ ih => exact inv_cycle st x ih


/-! ## C1: applied duty values -/

theorem cycle_set_duty (st : task_state) (x : adc_struct_t) (h : Inv st) (d : ℤ)
    (hd : Cmd.ledc_set_duty d ∈ (charger_task_cycle st x).2) : 409 ≤ d ∧ d ≤ 920 := by
  obtain ⟨c, b⟩ := st
  have h1 := h.min_duty
  have h2 := h.max_duty
  dsimp only at h1 h2
  cases b
  · rw [cycle_disconnected] at hd
    split_ifs at hd
    · have hb := clamp_duty_range { c with adc_val := x, cur_duty := duty_estimate x } h1 h2
      simp only [List.mem_cons, Cmd.ledc_set_duty.injEq, List.mem_singleton, reduceCtorEq,
        false_or, or_false, List.not_mem_nil] at hd
      rw [hd, u32_eq (by omega) (by omega)]
      exact hb
    · simp at hd
  · rw [cycle_connected, charge_cmds] at hd
    have hb := clamp_duty_range (charger_regulate { c with adc_val := x }).1
      (by simp [h1]) (by simp [h2])
    rw [List.mem_append] at hd
    rcases hd with hd | hd
    · rcases regulate_cases { c with adc_val := x } with hr | hr | hr <;>
        simp [hr, switch_source] at hd
    · simp only [List.mem_cons, Cmd.ledc_set_duty.injEq, List.mem_singleton, reduceCtorEq,
        or_false, List.not_mem_nil] at hd
      rw [hd, u32_eq (by omega) (by omega)]
      exact hb

theorem inv_run (xs : List adc_struct_t) : ∀ st, Inv st → Inv (charger_run st xs) := by
  induction xs with
  | nil => intro st h; exact h
  | cons x xs ih => intro st h; exact ih _ (inv_cycle st x h)

theorem trace_set_duty (xs : List adc_struct_t) :
    ∀ st, Inv st → ∀ d, Cmd.ledc_set_duty d ∈ charger_trace st xs → 409 ≤ d ∧ d ≤ 920 := by
  induction xs with
  | nil => intro st _ d hd; simp [charger_trace] at hd
  | cons x xs ih =>
    intro st h d hd
    simp only [charger_trace, List.mem_append] at hd
    rcases hd with hd | hd
    · exact cycle_set_duty st x h d hd
    · exact ih _ (inv_cycle st x h) d hd

/-- C1: from the initial state of `charger_task` and for every sequence of valid samples, every
duty value passed to `ledc_set_duty` (in the connection transition and in the charging branch)
lies between `min_duty = (40 * 1023) / 100 = 409` and `max_duty = (90 * 1023) / 100 = 920`. -/
theorem applied_duty_within_bounds (xs : List adc_struct_t)
    (hv : ∀ x ∈ xs, x.valid = true) (d : ℤ)
    (hd : Cmd.ledc_set_duty d ∈ charger_trace task_init xs) :
    task_init.charger_mppt.min_duty = 409 ∧ task_init.charger_mppt.max_duty = 920 ∧
      task_init.charger_mppt.min_duty ≤ d ∧ d ≤ task_init.charger_mppt.max_duty := by
  have h := trace_set_duty xs task_init inv_init d hd
  exact ⟨inv_init.min_duty, inv_init.max_duty, by rw [inv_init.min_duty]; exact h.1,
    by rw [inv_init.max_duty]; exact h.2⟩

theorem applied_duty_within_bounds_witness :
    Cmd.ledc_set_duty 871 ∈
        charger_trace task_init [sample_connect, sample_bulk] ∧
      Cmd.ledc_set_duty 872 ∈
        charger_trace task_init [sample_connect, sample_bulk] ∧
      task_init.charger_mppt.min_duty ≤ 872 ∧ 872 ≤ task_init.charger_mppt.max_duty :=
  ⟨by decide!, by decide!,
    (applied_duty_within_bounds [sample_connect, sample_bulk]
      (by decide!) 872 (by decide!)).2.2⟩


/-! ## C2: the duty bounds after each cycle -/

theorem bounded_cycle (st : task_state) (x : adc_struct_t) (h : Inv st)
    (hb : duty_bounded st ∨ sources_present x = true) :
    duty_bounded (charger_task_cycle st x).1 := by
  obtain ⟨c, b⟩ := st
  have h1 := h.min_duty
  have h2 := h.max_duty
  dsimp only at h1 h2
  cases b
  · rw [cycle_disconnected]
    split_ifs with hs
    · exact clamp_duty_range { c with adc_val := x, cur_duty := duty_estimate x } h1 h2
    · rcases hb with hb | hb
      · exact hb
      · exact absurd hb hs
  · rw [cycle_connected]
    exact clamp_duty_range (charger_regulate { c with adc_val := x }).1
      (by simp [h1]) (by simp [h2])

theorem bounded_run (xs : List adc_struct_t) :
    ∀ st, Inv st → duty_bounded st → duty_bounded (charger_run st xs) := by
  induction xs with
  | nil => intro st _ hb; exact hb
  | cons x xs ih =>
    intro st h hb
    exact ih _ (inv_cycle st x h) (bounded_cycle st x h (Or.inl hb))

theorem run_after_connection (xs : List adc_struct_t) :
    ∀ st, Inv st → (∃ x ∈ xs, sources_present x = true) →
      duty_bounded (charger_run st xs) := by
  induction xs with
  | nil => intro st _ hx; simp at hx
  | cons x xs ih =>
    intro st h hx
    by_cases hs : sources_present x = true
    · exact bounded_run xs _ (inv_cycle st x h) (bounded_cycle st x h (Or.inr hs))
    · refine ih _ (inv_cycle st x h) ?_
      obtain ⟨y, hy, hys⟩ := hx
      rcases List.mem_cons.mp hy with rfl | hy
      · exact absurd hys hs
      · exact ⟨y, hy, hys⟩

theorem run_before_connection (xs : List adc_struct_t) :
    ∀ st, st.setup_charger = false → (∀ x ∈ xs, sources_present x = false) →
      (charger_run st xs).charger_mppt.cur_duty = st.charger_mppt.cur_duty ∧
        (charger_run st xs).setup_charger = false := by
  induction xs with
  | nil => intro st hf _; exact ⟨rfl, hf⟩
  | cons x xs ih =>
    intro st hf hx
    obtain ⟨c, b⟩ := st
    dsimp only at hf
    subst hf
    have hs := hx x (List.mem_cons_self x xs)
    have hstep : charger_task_cycle { charger_mppt := c, setup_charger := false } x =
        ({ charger_mppt := { c with adc_val := x }, setup_charger := false }, []) := by
      rw [cycle_disconnected, hs]; rfl
    have := ih { charger_mppt := { c with adc_val := x }, setup_charger := false } rfl
      (fun y hy => hx y (List.mem_cons_of_mem x hy))
    simpa [charger_run, hstep] using this

/-- C2 (as stated, refuted): after the valid sample `v_solar = 12.0, v_bat = 11.5` the controller
is still disconnected and `cur_duty` is 0, below `min_duty = 409`. -/
theorem duty_invariant_fails_before_connection :
    (sample_no_solar).valid = true ∧
      (charger_run task_init [sample_no_solar]).setup_charger = false ∧
      (charger_run task_init [sample_no_solar]).charger_mppt.cur_duty = 0 ∧
      ¬ ((charger_run task_init [sample_no_solar]).charger_mppt.min_duty ≤
          (charger_run task_init [sample_no_solar]).charger_mppt.cur_duty) := by
  decide!

/-- C2 (amended): from the initial state and for every sequence of valid samples, once some
sample had `v_solar > 13.0` and `v_bat > 11.0` (the controller has connected), `min_duty ≤
cur_duty ≤ max_duty` holds after the cycle, connected or not; as long as no sample had, the
controller is disconnected and `cur_duty` is still its initial 0. -/
theorem duty_invariant_after_connection (xs : List adc_struct_t)
    (hv : ∀ x ∈ xs, x.valid = true) :
    ((∃ x ∈ xs, sources_present x = true) →
      (charger_run task_init xs).charger_mppt.min_duty ≤
          (charger_run task_init xs).charger_mppt.cur_duty ∧
        (charger_run task_init xs).charger_mppt.cur_duty ≤
          (charger_run task_init xs).charger_mppt.max_duty) ∧
    ((∀ x ∈ xs, sources_present x = false) →
      (charger_run task_init xs).charger_mppt.cur_duty = 0 ∧
        (charger_run task_init xs).setup_charger = false) := by
  have hi := inv_run xs task_init inv_init
  refine ⟨fun hx => ?_, fun hx => ?_⟩
  · have hb := run_after_connection xs task_init inv_init hx
    rw [hi.min_duty, hi.max_duty]
    exact hb
  · exact run_before_connection xs task_init rfl hx

theorem duty_invariant_after_connection_witness :
    (charger_run task_init [sample_no_solar, sample_connect,
        sample_no_solar]).charger_mppt.min_duty ≤
      (charger_run task_init [sample_no_solar, sample_connect,
        sample_no_solar]).charger_mppt.cur_duty ∧
    (charger_run task_init [sample_no_solar, sample_connect,
        sample_no_solar]).charger_mppt.cur_duty ≤
      (charger_run task_init [sample_no_solar, sample_connect,
        sample_no_solar]).charger_mppt.max_duty :=
  (duty_invariant_after_connection [sample_no_solar, sample_connect,
      sample_no_solar] (by decide!)).1
    ⟨sample_connect, by simp, by decide!⟩


/-! ## C3: the bulk region runs one perturb-and-observe step -/

theorem F64.ge_eq_false_of_lt {a b : F64} (h : F64.lt a b = true) : F64.ge a b = false := by
  cases a <;> cases b <;> simp_all [F64.lt, F64.ge, F64.le]

theorem F64.le_eq_false_of_gt {a b : F64} (h : F64.gt a b = true) : F64.le a b = false := by
  cases a <;> cases b <;> simp_all [F64.lt, F64.gt, F64.le]

theorem reachable_connected : Reachable st_connected :=
  Reachable.cycle task_init sample_connect Reachable.init


theorem regulate_bulk (c : charger_mppt_t)
    (hv : F64.ge c.adc_val.v_bat c.v_cccv_rate_bat = false)
    (hi : F64.le c.adc_val.i_bat c.i_cccv_rate_bat = true) :
    charger_regulate c = (mppt_algorithm c, []) := by
  simp [charger_regulate, hv, hi]

theorem mppt_algorithm_cur_duty (c : charger_mppt_t) :
    (mppt_algorithm c).cur_duty =
      if F64.ge (F64.sub (F64.mul c.adc_val.v_solar c.adc_val.i_solar) c.pre_power_solar)
          (F64.ofInt 0) = true then
        (if 0 ≤ wrap32 (c.cur_duty - c.pre_duty) then wrap32 (c.cur_duty + 1)
          else wrap32 (c.cur_duty - 1))
      else
        (if 0 ≤ wrap32 (c.cur_duty - c.pre_duty) then wrap32 (c.cur_duty - 1)
          else wrap32 (c.cur_duty + 1)) := rfl

/-- C3: in a connected cycle whose sample is in the bulk region (`v_bat < 12.9`, `i_bat <= 1.5`)
the controller runs one `mppt_algorithm` step followed by the clamp. With
`delta_P = v_solar * i_solar - pre_power_solar` and `delta_D = cur_duty - pre_duty` taken before
the step, the duty before the clamp is `cur_duty + 1` when the signs of `delta_P` and `delta_D`
agree (both `>= 0`, or both `< 0`) and `cur_duty - 1` when they differ; `pre_duty` becomes the
old `cur_duty` and the previous powers become the products `v * i` of the sample. -/
theorem bulk_cycle_perturb_and_observe (st : task_state) (x : adc_struct_t)
    (hr : Reachable st) (hc : st.setup_charger = true)
    (hv : F64.lt x.v_bat (F64.lit (129 / 10)) = true)
    (hi : F64.le x.i_bat (F64.lit (15 / 10)) = true) :
    (charger_task_cycle st x).1.charger_mppt =
        clamp_duty (mppt_algorithm { st.charger_mppt with adc_val := x }) ∧
      (mppt_algorithm { st.charger_mppt with adc_val := x }).delta_P =
        F64.sub (F64.mul x.v_solar x.i_solar) st.charger_mppt.pre_power_solar ∧
      (mppt_algorithm { st.charger_mppt with adc_val := x }).delta_D =
        st.charger_mppt.cur_duty - st.charger_mppt.pre_duty ∧
      ((F64.ge (F64.sub (F64.mul x.v_solar x.i_solar) st.charger_mppt.pre_power_solar)
            (F64.fin 0) = true ∧ 0 ≤ st.charger_mppt.cur_duty - st.charger_mppt.pre_duty) ∨
          (F64.lt (F64.sub (F64.mul x.v_solar x.i_solar) st.charger_mppt.pre_power_solar)
            (F64.fin 0) = true ∧ st.charger_mppt.cur_duty - st.charger_mppt.pre_duty < 0) →
        (mppt_algorithm { st.charger_mppt with adc_val := x }).cur_duty =
          st.charger_mppt.cur_duty + 1) ∧
      ((F64.ge (F64.sub (F64.mul x.v_solar x.i_solar) st.charger_mppt.pre_power_solar)
            (F64.fin 0) = true ∧ st.charger_mppt.cur_duty - st.charger_mppt.pre_duty < 0) ∨
          (F64.lt (F64.sub (F64.mul x.v_solar x.i_solar) st.charger_mppt.pre_power_solar)
            (F64.fin 0) = true ∧ 0 ≤ st.charger_mppt.cur_duty - st.charger_mppt.pre_duty) →
        (mppt_algorithm { st.charger_mppt with adc_val := x }).cur_duty =
          st.charger_mppt.cur_duty - 1) ∧
      (charger_task_cycle st x).1.charger_mppt.pre_duty = st.charger_mppt.cur_duty ∧
      (charger_task_cycle st x).1.charger_mppt.pre_power_solar =
        F64.mul x.v_solar x.i_solar ∧
      (charger_task_cycle st x).1.charger_mppt.pre_power_bat = F64.mul x.v_bat x.i_bat := by
  have hI := inv_reachable hr
  obtain ⟨c, b⟩ := st
  dsimp only at hc ⊢
  subst hc
  have hcur := hI.connected rfl
  have hpre := hI.pre_duty
  have h4 := hI.v_cccv
  have h5 := hI.i_cccv
  dsimp only at hcur hpre h4 h5
  have hreg : charger_regulate { c with adc_val := x } =
      (mppt_algorithm { c with adc_val := x }, []) :=
    regulate_bulk _ (by dsimp only; rw [h4]; exact F64.ge_eq_false_of_lt hv)
      (by dsimp only; rw [h5]; exact hi)
  have hD : wrap32 (c.cur_duty - c.pre_duty) = c.cur_duty - c.pre_duty :=
    wrap32_eq (by omega) (by omega)
  have hup : wrap32 (c.cur_duty + 1) = c.cur_duty + 1 := wrap32_eq (by omega) (by omega)
  have hdn : wrap32 (c.cur_duty - 1) = c.cur_duty - 1 := wrap32_eq (by omega) (by omega)
  refine ⟨?_, ?_, ?_, ?_, ?_, ?_, ?_, ?_⟩
  · rw [cycle_connected, charge_state, hreg]
  · rw [mppt_algorithm_eq]
  · rw [mppt_algorithm_eq]; exact hD
  · intro h
    rw [mppt_algorithm_cur_duty]
    dsimp only
    rw [hD, hup, hdn, ofInt_0]
    rcases h with ⟨hp, hd⟩ | ⟨hp, hd⟩
    · rw [if_pos hp, if_pos hd]
    · rw [if_neg (by rw [F64.ge_eq_false_of_lt hp]; simp), if_neg (by omega)]
  · intro h
    rw [mppt_algorithm_cur_duty]
    dsimp only
    rw [hD, hup, hdn, ofInt_0]
    rcases h with ⟨hp, hd⟩ | ⟨hp, hd⟩
    · rw [if_pos hp, if_neg (by omega)]
    · rw [if_neg (by rw [F64.ge_eq_false_of_lt hp]; simp), if_pos hd]
  · rw [cycle_connected, charge_state, hreg, clamp_duty_pre_duty, mppt_algorithm_pre_duty]
  · rw [cycle_connected, charge_state, hreg, clamp_duty_pre_power_solar, mppt_algorithm_eq]
  · rw [cycle_connected, charge_state, hreg, clamp_duty_pre_power_bat, mppt_algorithm_eq]

theorem bulk_cycle_perturb_and_observe_witness :
    (mppt_algorithm { st_connected.charger_mppt with adc_val := sample_bulk }).cur_duty =
      st_connected.charger_mppt.cur_duty + 1 :=
  (bulk_cycle_perturb_and_observe st_connected sample_bulk reachable_connected
    (by decide!) (by decide!) (by decide!)).2.2.2.1 (Or.inl (by decide!))


/-! ## C4: the disconnected branch -/

theorem clamp_duty_cur_duty (c : charger_mppt_t) (h1 : c.min_duty = 409)
    (h2 : c.max_duty = 920) : (clamp_duty c).cur_duty = max 409 (min 920 c.cur_duty) := by
  rw [clamp_duty_eq]
  dsimp only
  rw [h1, h2]
  split_ifs <;> omega

/-- C4: for a disconnected controller (bounds 409 and 920 from the configuration) and any sample:
if `v_solar > 13.0` and `v_bat > 11.0` the cycle ends connected, with `cur_duty` the truncation
`(int32_t)((v_bat / v_solar) * 1023)` clamped to `[409, 920]` (for a finite product this is the
product truncated toward zero and clamped, whatever its size), that duty written and committed to
the LEDC channel and relay and converter enable switched on; otherwise the cycle ends
disconnected, issues no call at all and leaves `cur_duty` and the outputs as they were. -/
theorem disconnected_cycle (st : task_state) (x : adc_struct_t) (hw : hw_state)
    (hc : st.setup_charger = false) (hmin : st.charger_mppt.min_duty = 409)
    (hmax : st.charger_mppt.max_duty = 920) :
    ((F64.gt x.v_solar (F64.fin 13) = true ∧ F64.gt x.v_bat (F64.fin 11) = true) →
      (charger_task_cycle st x).1.setup_charger = true ∧
      (charger_task_cycle st x).1.charger_mppt.cur_duty =
        max 409 (min 920 (F64.toInt32 (F64.mul (F64.div x.v_bat x.v_solar) (F64.fin 1023)))) ∧
      (∀ q : ℚ, F64.mul (F64.div x.v_bat x.v_solar) (F64.fin 1023) = F64.fin q →
        (charger_task_cycle st x).1.charger_mppt.cur_duty =
          max 409 (min 920 (if 0 ≤ q then Rat.floor q else -Rat.floor (-q)))) ∧
      (charger_task_cycle st x).2 =
        [Cmd.vTaskSuspend,
          Cmd.ledc_set_duty (charger_task_cycle st x).1.charger_mppt.cur_duty,
          Cmd.ledc_update_duty, Cmd.vTaskDelay 3000, Cmd.gpio_set_level Pin.RELAY 1,
          Cmd.gpio_set_level Pin.MPPT_EN 1, Cmd.vTaskDelay 500, Cmd.vTaskResume] ∧
      ((charger_task_cycle st x).2.foldl hw_exec hw).duty_out =
        (charger_task_cycle st x).1.charger_mppt.cur_duty ∧
      ((charger_task_cycle st x).2.foldl hw_exec hw).path_closed) ∧
    (¬ (F64.gt x.v_solar (F64.fin 13) = true ∧ F64.gt x.v_bat (F64.fin 11) = true) →
      (charger_task_cycle st x).1.setup_charger = false ∧
      (charger_task_cycle st x).2 = [] ∧
      (charger_task_cycle st x).1.charger_mppt.cur_duty = st.charger_mppt.cur_duty ∧
      (charger_task_cycle st x).2.foldl hw_exec hw = hw) := by
  obtain ⟨c, b⟩ := st
  dsimp only at hc hmin hmax
  subst hc
  have h1023 : F64.ofInt 1023 = F64.fin 1023 := by decide!
  have hcur := clamp_duty_cur_duty { c with adc_val := x, cur_duty := duty_estimate x } hmin hmax
  have hrange := clamp_duty_range { c with adc_val := x, cur_duty := duty_estimate x } hmin hmax
  constructor
  · intro hs
    have hsp : sources_present x = true := by
      simp only [sources_present, lit_13, lit_11, hs.1, hs.2, Bool.and_self]
    rw [cycle_disconnected, if_pos hsp]
    dsimp only
    rw [u32_eq (by omega) (by omega)]
    have hest : duty_estimate x =
        F64.toInt32 (F64.mul (F64.div x.v_bat x.v_solar) (F64.fin 1023)) := by
      simp only [duty_estimate, duty_ratio, h1023]
    refine ⟨rfl, ?_, ?_, rfl, rfl, rfl, rfl⟩
    · rw [hcur, hest]
    · intro q hq
      rw [hcur, hest, hq]
      simp only [F64.toInt32]
      split_ifs <;> omega
  · intro hs
    have hsp : ¬ sources_present x = true := by
      simpa only [sources_present, lit_13, lit_11, Bool.and_eq_true] using hs
    rw [cycle_disconnected, if_neg hsp]
    exact ⟨rfl, rfl, rfl, rfl⟩

theorem disconnected_cycle_witness :
    ((charger_task_cycle task_init sample_connect).1.setup_charger = true ∧
      (charger_task_cycle task_init sample_connect).1.charger_mppt.cur_duty = 871) ∧
    ((charger_task_cycle task_init sample_no_solar).1.setup_charger = false ∧
      (charger_task_cycle task_init sample_no_solar).2 = []) :=
  ⟨⟨((disconnected_cycle task_init sample_connect hw_init rfl (by decide) (by decide)).1
        (by decide!)).1,
      ((disconnected_cycle task_init sample_connect hw_init rfl (by decide) (by decide)).1
        (by decide!)).2.1.trans (by decide!)⟩,
    ((disconnected_cycle task_init sample_no_solar hw_init rfl (by decide) (by decide)).2
        (by decide!)).1,
    ((disconnected_cycle task_init sample_no_solar hw_init rfl (by decide) (by decide)).2
        (by decide!)).2.1⟩


/-! ## C5: the connected branch and the disconnect flag -/

theorem regulate_float (c : charger_mppt_t)
    (hv : F64.ge c.adc_val.v_bat c.v_cccv_rate_bat = true)
    (hi : F64.le c.adc_val.i_bat c.i_float_rate_bat = true) :
    charger_regulate c = (c, switch_source 0) := by
  simp [charger_regulate, hv, hi]

theorem regulate_taper (c : charger_mppt_t)
    (hv : F64.ge c.adc_val.v_bat c.v_cccv_rate_bat = true)
    (hi : F64.le c.adc_val.i_bat c.i_float_rate_bat = false) :
    charger_regulate c = ({ c with cur_duty := wrap32 (c.cur_duty - 1) }, []) := by
  simp [charger_regulate, hv, hi]

theorem regulate_overcurrent (c : charger_mppt_t)
    (hv : F64.ge c.adc_val.v_bat c.v_cccv_rate_bat = false)
    (hi : F64.le c.adc_val.i_bat c.i_cccv_rate_bat = false) :
    charger_regulate c = ({ c with cur_duty := wrap32 (c.cur_duty - 1) }, []) := by
  simp [charger_regulate, hv, hi]

theorem regulate_no_close (c : charger_mppt_t) :
    (charger_regulate c).2 = [] ∨ (charger_regulate c).2 = switch_source 0 := by
  rcases regulate_cases c with h | h | h <;> simp [h]

theorem cycle_of_disconnected (st : task_state) (y : adc_struct_t)
    (h : st.setup_charger = false) :
    charger_task_cycle st y = charger_setup { st.charger_mppt with adc_val := y } := by
  simp [charger_task_cycle, h]

/-- C5: in a cycle that starts connected, the flag is cleared exactly when the sample has
`v_solar <= 13.0` or `v_bat <= 11.0`. Flagged or not, the record and the calls of that cycle are
those of the region decision (`charger_regulate`: float, taper, bulk or over-current) followed by
the clamp and the duty write; the only calls besides the duty write are those of the region
decision (none, or `switch_source(0)`). When the flag was cleared, the next cycle takes the
disconnected branch. -/
theorem connected_cycle_disconnect_lag (st : task_state) (x y : adc_struct_t)
    (hc : st.setup_charger = true) :
    ((charger_task_cycle st x).1.setup_charger = false ↔
      (F64.le x.v_solar (F64.fin 13) = true ∨ F64.le x.v_bat (F64.fin 11) = true)) ∧
    (charger_task_cycle st x).1.charger_mppt =
      clamp_duty (charger_regulate { st.charger_mppt with adc_val := x }).1 ∧
    (charger_task_cycle st x).2 =
      (charger_regulate { st.charger_mppt with adc_val := x }).2 ++
        [Cmd.ledc_set_duty (u32 (charger_task_cycle st x).1.charger_mppt.cur_duty),
          Cmd.ledc_update_duty] ∧
    ((charger_regulate { st.charger_mppt with adc_val := x }).2 = [] ∨
      (charger_regulate { st.charger_mppt with adc_val := x }).2 = switch_source 0) ∧
    ((charger_task_cycle st x).1.setup_charger = false →
      charger_task_cycle (charger_task_cycle st x).1 y =
        charger_setup { (charger_task_cycle st x).1.charger_mppt with adc_val := y }) := by
  obtain ⟨c, b⟩ := st
  dsimp only at hc
  subst hc
  refine ⟨?_, ?_, ?_, regulate_no_close _, ?_⟩
  · rw [cycle_connected, charge_flag, lit_13, lit_11]
    cases F64.le x.v_solar (F64.fin 13) <;> cases F64.le x.v_bat (F64.fin 11) <;> simp
  · rw [cycle_connected, charge_state]
  · rw [cycle_connected, charge_cmds, charge_state]
  · intro h
    exact cycle_of_disconnected _ y h

theorem connected_cycle_disconnect_lag_witness :
    (charger_task_cycle st_connected sample_no_solar).1.setup_charger = false ∧
      (charger_task_cycle st_connected sample_no_solar).2 =
        [Cmd.ledc_set_duty 872, Cmd.ledc_update_duty] :=
  ⟨(connected_cycle_disconnect_lag st_connected sample_no_solar sample_no_solar
      (by decide!)).1.mpr (Or.inl (by decide!)),
    (connected_cycle_disconnect_lag st_connected sample_no_solar sample_no_solar
      (by decide!)).2.2.1.trans (by decide!)⟩

/-! ## C6: the float region -/

/-- C6: from a reachable connected state, a sample with `v_bat >= 12.9` and `i_bat <= 0.1` makes
the cycle switch relay and converter enable off; the record is unchanged apart from holding the
new sample, so `cur_duty` keeps its value (which is written to the LEDC channel again) and no
`mppt_algorithm` step is run. -/
theorem float_cycle_opens_path (st : task_state) (x : adc_struct_t) (hw : hw_state)
    (hr : Reachable st) (hc : st.setup_charger = true)
    (hv : F64.ge x.v_bat (F64.lit (129 / 10)) = true)
    (hi : F64.le x.i_bat (F64.lit (1 / 10)) = true) :
    (charger_task_cycle st x).2 =
        [Cmd.gpio_set_level Pin.RELAY 0, Cmd.gpio_set_level Pin.MPPT_EN 0,
          Cmd.ledc_set_duty st.charger_mppt.cur_duty, Cmd.ledc_update_duty] ∧
      ((charger_task_cycle st x).2.foldl hw_exec hw).path_open ∧
      (charger_task_cycle st x).1.charger_mppt = { st.charger_mppt with adc_val := x } ∧
      (charger_task_cycle st x).1.charger_mppt.cur_duty = st.charger_mppt.cur_duty := by
  have hI := inv_reachable hr
  obtain ⟨c, b⟩ := st
  dsimp only at hc ⊢
  subst hc
  have hcur := hI.connected rfl
  have h1 := hI.min_duty
  have h2 := hI.max_duty
  have h3 := hI.i_float
  have h4 := hI.v_cccv
  dsimp only at hcur h1 h2 h3 h4
  have hreg : charger_regulate { c with adc_val := x } =
      ({ c with adc_val := x }, switch_source 0) :=
    regulate_float _ (by dsimp only; rw [h4]; exact hv) (by dsimp only; rw [h3]; exact hi)
  have hcl : clamp_duty { c with adc_val := x } = { c with adc_val := x } :=
    clamp_duty_id _ (by dsimp only; omega) (by dsimp only; omega)
  have hst : (charger_task_cycle { charger_mppt := c, setup_charger := true } x).1.charger_mppt
      = { c with adc_val := x } := by
    rw [cycle_connected, charge_state, hreg, hcl]
  have hcmd : (charger_task_cycle { charger_mppt := c, setup_charger := true } x).2 =
      [Cmd.gpio_set_level Pin.RELAY 0, Cmd.gpio_set_level Pin.MPPT_EN 0,
        Cmd.ledc_set_duty c.cur_duty, Cmd.ledc_update_duty] := by
    rw [cycle_connected, charge_cmds, hreg, hcl]
    dsimp only
    rw [u32_eq (by omega) (by omega)]
    rfl
  refine ⟨hcmd, ?_, hst, ?_⟩
  · rw [hcmd]
    exact ⟨rfl, rfl⟩
  · rw [hst]

theorem float_cycle_opens_path_witness :
    (charger_task_cycle st_connected sample_float).2 =
        [Cmd.gpio_set_level Pin.RELAY 0, Cmd.gpio_set_level Pin.MPPT_EN 0,
          Cmd.ledc_set_duty st_connected.charger_mppt.cur_duty, Cmd.ledc_update_duty] ∧
      (charger_task_cycle st_connected sample_float).1.charger_mppt.cur_duty = 871 :=
  ⟨(float_cycle_opens_path st_connected sample_float hw_init reachable_connected
      (by decide!) (by decide!) (by decide!)).1,
    (float_cycle_opens_path st_connected sample_float hw_init reachable_connected
      (by decide!) (by decide!) (by decide!)).2.2.2.trans (by decide!)⟩

/-! ## C7: the over-current and taper regions -/

/-- C7 (as stated, refuted): after connecting on `sample_high_solar` the duty is `min_duty = 409`;
the over-current sample `v_bat = 12.0, i_bat = 2.0` then leaves it at 409, not at 408. -/
theorem overcurrent_at_min_duty_not_decremented :
    (charger_run task_init [sample_high_solar]).setup_charger = true ∧
      (charger_run task_init [sample_high_solar]).charger_mppt.cur_duty = 409 ∧
      F64.lt sample_overcurrent.v_bat (F64.lit (129 / 10)) = true ∧
      F64.gt sample_overcurrent.i_bat (F64.lit (15 / 10)) = true ∧
      (charger_run task_init [sample_high_solar, sample_overcurrent]).charger_mppt.cur_duty ≠
        (charger_run task_init [sample_high_solar]).charger_mppt.cur_duty - 1 := by
  decide!

/-- C7 (amended): in a connected cycle whose sample is in the over-current region
(`v_bat < 12.9`, `i_bat > 1.5`) or in the taper region (`v_bat >= 12.9`, `i_bat > 0.1`) the duty
before the clamp is `cur_duty - 1`, and after the cycle `cur_duty` is `cur_duty - 1` raised to
`min_duty = 409`: one less than before unless it already was 409. No `mppt_algorithm` step is
run: apart from the sample and `cur_duty` the record is unchanged, in particular `pre_duty`,
`pre_power_solar`, `pre_power_bat`, `delta_P` and `delta_D`. -/
theorem decrement_cycle (st : task_state) (x : adc_struct_t)
    (hr : Reachable st) (hc : st.setup_charger = true)
    (hx : (F64.lt x.v_bat (F64.lit (129 / 10)) = true ∧
            F64.gt x.i_bat (F64.lit (15 / 10)) = true) ∨
          (F64.ge x.v_bat (F64.lit (129 / 10)) = true ∧
            F64.gt x.i_bat (F64.lit (1 / 10)) = true)) :
    (charger_regulate { st.charger_mppt with adc_val := x }).1.cur_duty =
        st.charger_mppt.cur_duty - 1 ∧
      (charger_task_cycle st x).1.charger_mppt =
        { st.charger_mppt with
          adc_val := x, cur_duty := max 409 (st.charger_mppt.cur_duty - 1) } ∧
      (409 < st.charger_mppt.cur_duty →
        (charger_task_cycle st x).1.charger_mppt.cur_duty = st.charger_mppt.cur_duty - 1) ∧
      (charger_task_cycle st x).1.charger_mppt.pre_duty = st.charger_mppt.pre_duty ∧
      (charger_task_cycle st x).1.charger_mppt.pre_power_solar =
        st.charger_mppt.pre_power_solar ∧
      (charger_task_cycle st x).1.charger_mppt.pre_power_bat = st.charger_mppt.pre_power_bat ∧
      (charger_task_cycle st x).1.charger_mppt.delta_P = st.charger_mppt.delta_P ∧
      (charger_task_cycle st x).1.charger_mppt.delta_D = st.charger_mppt.delta_D := by
  have hI := inv_reachable hr
  obtain ⟨c, b⟩ := st
  dsimp only at hc ⊢
  subst hc
  have hcur := hI.connected rfl
  have h1 := hI.min_duty
  have h2 := hI.max_duty
  have h3 := hI.i_float
  have h4 := hI.v_cccv
  have h5 := hI.i_cccv
  dsimp only at hcur h1 h2 h3 h4 h5
  have hdn : wrap32 (c.cur_duty - 1) = c.cur_duty - 1 := wrap32_eq (by omega) (by omega)
  have hreg : charger_regulate { c with adc_val := x } =
      ({ c with adc_val := x, cur_duty := c.cur_duty - 1 }, []) := by
    rcases hx with ⟨hv, hi⟩ | ⟨hv, hi⟩
    · rw [regulate_overcurrent _ (by dsimp only; rw [h4]; exact F64.ge_eq_false_of_lt hv)
        (by dsimp only; rw [h5]; exact F64.le_eq_false_of_gt hi)]
      dsimp only
      rw [hdn]
    · rw [regulate_taper _ (by dsimp only; rw [h4]; exact hv)
        (by dsimp only; rw [h3]; exact F64.le_eq_false_of_gt hi)]
      dsimp only
      rw [hdn]
  have hst : (charger_task_cycle { charger_mppt := c, setup_charger := true } x).1.charger_mppt
      = { c with adc_val := x, cur_duty := max 409 (c.cur_duty - 1) } := by
    rw [cycle_connected, charge_state, hreg, clamp_duty_eq]
    dsimp only
    rw [h1, h2]
    congr 1
    split_ifs <;> omega
  refine ⟨?_, hst, ?_, ?_, ?_, ?_, ?_, ?_⟩
  · rw [hreg]
  · intro h
    rw [hst]
    dsimp only
    omega
  all_goals rw [hst]

theorem decrement_cycle_witness :
    (charger_task_cycle st_connected sample_overcurrent).1.charger_mppt.cur_duty = 870 ∧
      (charger_task_cycle st_connected sample_taper).1.charger_mppt.cur_duty = 870 :=
  ⟨((decrement_cycle st_connected sample_overcurrent reachable_connected (by decide!)
      (Or.inl (by decide!))).2.2.1 (by decide!)).trans (by decide!),
    ((decrement_cycle st_connected sample_taper reachable_connected (by decide!)
      (Or.inr (by decide!))).2.2.1 (by decide!)).trans (by decide!)⟩

/-! ## C8: at most one duty step per cycle -/

theorem F64.sub_self_fin (q : ℚ) : F64.sub (F64.fin q) (F64.fin q) = F64.fin 0 := by
  simp [F64.sub, F64.neg, F64.add, round64]

theorem F64.ge_fin_zero : F64.ge (F64.fin 0) (F64.fin 0) = true := by
  simp [F64.ge, F64.le]

/-- C8: from a reachable connected state one charging cycle changes `cur_duty` by at most 1.
For a bulk-region sample whose `delta_P` is 0 the `delta_P >= 0` branch is taken: the duty before
the clamp is `cur_duty + 1` when `delta_D >= 0` (in particular when `delta_D = 0`) and
`cur_duty - 1` when `delta_D < 0`. Feeding the same bulk-region sample again gives `delta_P = 0`
when its solar power is finite, because the cycle stored that power in `pre_power_solar`. -/
theorem charging_cycle_step_at_most_one (st : task_state) (x : adc_struct_t)
    (hr : Reachable st) (hc : st.setup_charger = true) :
    |(charger_task_cycle st x).1.charger_mppt.cur_duty - st.charger_mppt.cur_duty| ≤ 1 ∧
    (F64.lt x.v_bat (F64.lit (129 / 10)) = true → F64.le x.i_bat (F64.lit (15 / 10)) = true →
      F64.sub (F64.mul x.v_solar x.i_solar) st.charger_mppt.pre_power_solar = F64.fin 0 →
        (charger_task_cycle st x).1.charger_mppt =
          clamp_duty (mppt_algorithm { st.charger_mppt with adc_val := x }) ∧
        (mppt_algorithm { st.charger_mppt with adc_val := x }).delta_P = F64.fin 0 ∧
        (0 ≤ st.charger_mppt.cur_duty - st.charger_mppt.pre_duty →
          (mppt_algorithm { st.charger_mppt with adc_val := x }).cur_duty =
            st.charger_mppt.cur_duty + 1) ∧
        (st.charger_mppt.cur_duty - st.charger_mppt.pre_duty < 0 →
          (mppt_algorithm { st.charger_mppt with adc_val := x }).cur_duty =
            st.charger_mppt.cur_duty - 1) ∧
        (st.charger_mppt.cur_duty - st.charger_mppt.pre_duty = 0 →
          (mppt_algorithm { st.charger_mppt with adc_val := x }).delta_D = 0 ∧
          (mppt_algorithm { st.charger_mppt with adc_val := x }).cur_duty =
            st.charger_mppt.cur_duty + 1)) ∧
    (F64.lt x.v_bat (F64.lit (129 / 10)) = true → F64.le x.i_bat (F64.lit (15 / 10)) = true →
      (F64.mul x.v_solar x.i_solar).isFinite = true →
        F64.sub (F64.mul x.v_solar x.i_solar)
          (charger_task_cycle st x).1.charger_mppt.pre_power_solar = F64.fin 0) := by
  have hI := inv_reachable hr
  obtain ⟨c, b⟩ := st
  dsimp only at hc ⊢
  subst hc
  have hcur := hI.connected rfl
  have hpre := hI.pre_duty
  have h1 := hI.min_duty
  have h2 := hI.max_duty
  have h4 := hI.v_cccv
  have h5 := hI.i_cccv
  dsimp only at hcur hpre h1 h2 h4 h5
  have hD : wrap32 (c.cur_duty - c.pre_duty) = c.cur_duty - c.pre_duty :=
    wrap32_eq (by omega) (by omega)
  have hup : wrap32 (c.cur_duty + 1) = c.cur_duty + 1 := wrap32_eq (by omega) (by omega)
  have hdn : wrap32 (c.cur_duty - 1) = c.cur_duty - 1 := wrap32_eq (by omega) (by omega)
  have hbulk : F64.lt x.v_bat (F64.lit (129 / 10)) = true →
      F64.le x.i_bat (F64.lit (15 / 10)) = true →
      charger_regulate { c with adc_val := x } = (mppt_algorithm { c with adc_val := x }, []) :=
    fun hv hi => regulate_bulk _ (by dsimp only; rw [h4]; exact F64.ge_eq_false_of_lt hv)
      (by dsimp only; rw [h5]; exact hi)
  refine ⟨?_, ?_, ?_⟩
  · have hstep : |(charger_regulate { c with adc_val := x }).1.cur_duty - c.cur_duty| ≤ 1 := by
      rw [abs_le]
      rcases regulate_cases { c with adc_val := x } with hr | hr | hr
      · rw [hr]; dsimp only; omega
      · rw [hr]; dsimp only; rw [hdn]; omega
      · rw [hr, mppt_algorithm_cur_duty]; dsimp only; rw [hD, hup, hdn]; split_ifs <;> omega
    have hcl := clamp_duty_cur_duty (charger_regulate { c with adc_val := x }).1
      (by simp [h1]) (by simp [h2])
    rw [cycle_connected, charge_state, hcl]
    rw [abs_le] at hstep ⊢
    omega
  · intro hv hi hP
    have hcd := mppt_algorithm_cur_duty { c with adc_val := x }
    dsimp only at hcd
    rw [hP, ofInt_0, if_pos F64.ge_fin_zero, hD, hup, hdn] at hcd
    refine ⟨?_, ?_, ?_, ?_, ?_⟩
    · rw [cycle_connected, charge_state, hbulk hv hi]
    · rw [mppt_algorithm_eq]; exact hP
    · intro hd; rw [hcd, if_pos hd]
    · intro hd; rw [hcd, if_neg (by omega)]
    · intro hd
      refine ⟨?_, ?_⟩
      · rw [mppt_algorithm_eq]; dsimp only; rw [hD]; exact hd
      · rw [hcd, if_pos (by omega)]
  · intro hv hi hfin
    rw [cycle_connected, charge_state, hbulk hv hi, clamp_duty_pre_power_solar,
      mppt_algorithm_eq]
    dsimp only
    cases hm : F64.mul x.v_solar x.i_solar with
    | fin q => exact F64.sub_self_fin q
    | pinf => rw [hm] at hfin; simp [F64.isFinite] at hfin
    | ninf => rw [hm] at hfin; simp [F64.isFinite] at hfin
    | nan => rw [hm] at hfin; simp [F64.isFinite] at hfin

theorem charging_cycle_step_at_most_one_witness :
    (mppt_algorithm { (charger_task_cycle st_connected sample_bulk).1.charger_mppt with
        adc_val := sample_bulk }).delta_P = F64.fin 0 ∧
      (mppt_algorithm { (charger_task_cycle st_connected sample_bulk).1.charger_mppt with
        adc_val := sample_bulk }).cur_duty =
        (charger_task_cycle st_connected sample_bulk).1.charger_mppt.cur_duty + 1 :=
  ⟨((charging_cycle_step_at_most_one (charger_task_cycle st_connected sample_bulk).1 sample_bulk
      (Reachable.cycle st_connected sample_bulk reachable_connected) (by decide!)).2.1
      (by decide!) (by decide!) (by decide!)).2.1,
    ((charging_cycle_step_at_most_one (charger_task_cycle st_connected sample_bulk).1 sample_bulk
      (Reachable.cycle st_connected sample_bulk reachable_connected) (by decide!)).2.1
      (by decide!) (by decide!) (by decide!)).2.2.1 (by decide!)⟩

/-! ## C9: calibration offsets of the sampler -/

theorem roundEven_nonneg {q : ℚ} (h : 0 ≤ q) : 0 ≤ roundEven q := by
  have hf : (0 : ℤ) ≤ Rat.floor q := by
    have : Rat.floor q = ⌊q⌋ := rfl
    rw [this]
    exact Int.floor_nonneg.mpr h
  unfold roundEven
  dsimp only
  split_ifs <;> omega

theorem roundMag_nonneg {q : ℚ} (h : 0 ≤ q) : 0 ≤ roundMag q := by
  unfold roundMag
  dsimp only
  have hu : (0 : ℚ) < 2 ^ (max (ilog2 q) (-1022) - 52) := zpow_pos (by norm_num) _
  have hr := roundEven_nonneg (div_nonneg h hu.le)
  exact mul_nonneg (by exact_mod_cast hr) hu.le

theorem round64_nonneg {q : ℚ} (h : 0 ≤ q) : F64.ge (round64 q) (F64.fin 0) = true := by
  unfold round64
  split_ifs with h0 hp hm hm
  · simp [F64.ge, F64.le]
  · simpa [F64.ge, F64.le] using roundMag_nonneg (q := q) h
  · simp [F64.ge, F64.le]
  · exact absurd (lt_of_le_of_ne h (Ne.symm h0)) hp
  · exact absurd (lt_of_le_of_ne h (Ne.symm h0)) hp

theorem F64.sub_nonneg_of_gt {a : F64} {o : ℚ}
    (h : F64.gt a (F64.fin o) = true) : F64.ge (F64.sub a (F64.fin o)) (F64.fin 0) = true := by
  cases a with
  | fin q =>
    have hq : o < q := by simpa [F64.gt, F64.lt] using h
    simp only [F64.sub, F64.neg, F64.add]
    exact round64_nonneg (by linarith)
  | pinf => simp [F64.sub, F64.neg, F64.add, F64.ge, F64.le]
  | ninf => simp [F64.gt, F64.lt] at h
  | nan => simp [F64.gt, F64.lt] at h

theorem calibrate_nonneg {a : F64} (o : ℚ)
    (ha : F64.ge a (F64.fin 0) = true) :
    F64.ge (if F64.gt a (F64.fin o) = true then F64.sub a (F64.fin o) else a) (F64.fin 0)
      = true := by
  split_ifs with h
  · exact F64.sub_nonneg_of_gt h
  · exact ha

theorem solar_voltage_offset_eq : SOLAR_VOLTAGE_OFFSET = F64.fin 0 := by decide!
theorem solar_current_offset_eq : SOLAR_CURRENT_OFFSET = F64.fin 0 := by decide!
theorem battery_voltage_offset_eq : BATTERY_VOLTAGE_OFFSET = F64.fin 0 := by decide!
theorem battery_current_offset_eq :
    BATTERY_CURRENT_OFFSET = F64.fin (1080863910568919 / 18014398509481984) := by decide!

theorem i2c_task_sample_v_solar (rs : List ina226_reading) :
    (i2c_task_sample rs).v_solar =
      if F64.gt (F64.div (i2c_sum rs).v_solar (F64.lit 10)) SOLAR_VOLTAGE_OFFSET = true then
        F64.sub (F64.div (i2c_sum rs).v_solar (F64.lit 10)) SOLAR_VOLTAGE_OFFSET
      else F64.div (i2c_sum rs).v_solar (F64.lit 10) := by
  unfold i2c_task_sample
  dsimp only
  split_ifs <;> rfl

theorem i2c_task_sample_i_solar (rs : List ina226_reading) :
    (i2c_task_sample rs).i_solar =
      if F64.gt (F64.div (i2c_sum rs).i_solar (F64.lit 10)) SOLAR_CURRENT_OFFSET = true then
        F64.sub (F64.div (i2c_sum rs).i_solar (F64.lit 10)) SOLAR_CURRENT_OFFSET
      else F64.div (i2c_sum rs).i_solar (F64.lit 10) := by
  unfold i2c_task_sample
  dsimp only
  split_ifs <;> rfl

theorem i2c_task_sample_v_bat (rs : List ina226_reading) :
    (i2c_task_sample rs).v_bat =
      if F64.gt (F64.div (i2c_sum rs).v_bat (F64.lit 10)) BATTERY_VOLTAGE_OFFSET = true then
        F64.sub (F64.div (i2c_sum rs).v_bat (F64.lit 10)) BATTERY_VOLTAGE_OFFSET
      else F64.div (i2c_sum rs).v_bat (F64.lit 10) := by
  unfold i2c_task_sample
  dsimp only
  split_ifs <;> rfl

theorem i2c_task_sample_i_bat (rs : List ina226_reading) :
    (i2c_task_sample rs).i_bat =
      if F64.gt (F64.div (i2c_sum rs).i_bat (F64.lit 10)) BATTERY_CURRENT_OFFSET = true then
        F64.sub (F64.div (i2c_sum rs).i_bat (F64.lit 10)) BATTERY_CURRENT_OFFSET
      else F64.div (i2c_sum rs).i_bat (F64.lit 10) := by
  unfold i2c_task_sample
  dsimp only
  split_ifs <;> rfl


/-- C9: in the sampler each of the four channels has a fixed offset (0.00 for the solar voltage,
0 for the solar current and the battery voltage, 0.06 for the battery current). With `a` the
averaged reading of a channel (the sum of the sub-readings divided by 10.0) and `a >= 0`, the
reading sent to the controller is `a - offset` when `a > offset` and `a` otherwise, and it is
not negative. -/
theorem calibration_never_negative (rs : List ina226_reading) :
    (SOLAR_VOLTAGE_OFFSET = F64.lit 0 ∧ SOLAR_CURRENT_OFFSET = F64.ofInt 0 ∧
      BATTERY_VOLTAGE_OFFSET = F64.ofInt 0 ∧ BATTERY_CURRENT_OFFSET = F64.lit (6 / 100)) ∧
    (F64.ge (F64.div (i2c_sum rs).v_solar (F64.lit 10)) (F64.fin 0) = true →
      (i2c_task_sample rs).v_solar =
        (if F64.gt (F64.div (i2c_sum rs).v_solar (F64.lit 10)) SOLAR_VOLTAGE_OFFSET = true then
          F64.sub (F64.div (i2c_sum rs).v_solar (F64.lit 10)) SOLAR_VOLTAGE_OFFSET
        else F64.div (i2c_sum rs).v_solar (F64.lit 10)) ∧
      F64.ge (i2c_task_sample rs).v_solar (F64.fin 0) = true) ∧
    (F64.ge (F64.div (i2c_sum rs).i_solar (F64.lit 10)) (F64.fin 0) = true →
      (i2c_task_sample rs).i_solar =
        (if F64.gt (F64.div (i2c_sum rs).i_solar (F64.lit 10)) SOLAR_CURRENT_OFFSET = true then
          F64.sub (F64.div (i2c_sum rs).i_solar (F64.lit 10)) SOLAR_CURRENT_OFFSET
        else F64.div (i2c_sum rs).i_solar (F64.lit 10)) ∧
      F64.ge (i2c_task_sample rs).i_solar (F64.fin 0) = true) ∧
    (F64.ge (F64.div (i2c_sum rs).v_bat (F64.lit 10)) (F64.fin 0) = true →
      (i2c_task_sample rs).v_bat =
        (if F64.gt (F64.div (i2c_sum rs).v_bat (F64.lit 10)) BATTERY_VOLTAGE_OFFSET = true then
          F64.sub (F64.div (i2c_sum rs).v_bat (F64.lit 10)) BATTERY_VOLTAGE_OFFSET
        else F64.div (i2c_sum rs).v_bat (F64.lit 10)) ∧
      F64.ge (i2c_task_sample rs).v_bat (F64.fin 0) = true) ∧
    (F64.ge (F64.div (i2c_sum rs).i_bat (F64.lit 10)) (F64.fin 0) = true →
      (i2c_task_sample rs).i_bat =
        (if F64.gt (F64.div (i2c_sum rs).i_bat (F64.lit 10)) BATTERY_CURRENT_OFFSET = true then
          F64.sub (F64.div (i2c_sum rs).i_bat (F64.lit 10)) BATTERY_CURRENT_OFFSET
        else F64.div (i2c_sum rs).i_bat (F64.lit 10)) ∧
      F64.ge (i2c_task_sample rs).i_bat (F64.fin 0) = true) := by
  refine ⟨⟨rfl, rfl, rfl, rfl⟩, fun h => ⟨i2c_task_sample_v_solar rs, ?_⟩,
    fun h => ⟨i2c_task_sample_i_solar rs, ?_⟩, fun h => ⟨i2c_task_sample_v_bat rs, ?_⟩,
    fun h => ⟨i2c_task_sample_i_bat rs, ?_⟩⟩
  · rw [i2c_task_sample_v_solar, solar_voltage_offset_eq]
    exact calibrate_nonneg _ h
  · rw [i2c_task_sample_i_solar, solar_current_offset_eq]
    exact calibrate_nonneg _ h
  · rw [i2c_task_sample_v_bat, battery_voltage_offset_eq]
    exact calibrate_nonneg _ h
  · rw [i2c_task_sample_i_bat, battery_current_offset_eq]
    exact calibrate_nonneg _ h

theorem calibration_never_negative_witness :
    (i2c_task_sample readings_example).i_bat = F64.lit (44 / 100) ∧
      F64.ge (i2c_task_sample readings_example).i_bat (F64.fin 0) = true ∧
      (i2c_task_sample readings_example).v_solar = F64.lit (27 / 2) :=
  ⟨((calibration_never_negative readings_example).2.2.2.2 (by decide!)).1.trans (by decide!),
    ((calibration_never_negative readings_example).2.2.2.2 (by decide!)).2,
    ((calibration_never_negative readings_example).2.1 (by decide!)).1.trans (by decide!)⟩

/-! ## C10: a connected cycle never closes the power path -/

theorem connected_cmds (c : charger_mppt_t) (x : adc_struct_t) :
    (charger_task_cycle { charger_mppt := c, setup_charger := true } x).2 =
        [Cmd.ledc_set_duty
            (u32 (clamp_duty (charger_regulate { c with adc_val := x }).1).cur_duty),
          Cmd.ledc_update_duty] ∨
      (charger_task_cycle { charger_mppt := c, setup_charger := true } x).2 =
        [Cmd.gpio_set_level Pin.RELAY 0, Cmd.gpio_set_level Pin.MPPT_EN 0,
          Cmd.ledc_set_duty
            (u32 (clamp_duty (charger_regulate { c with adc_val := x }).1).cur_duty),
          Cmd.ledc_update_duty] := by
  rw [cycle_connected, charge_cmds]
  rcases regulate_no_close { c with adc_val := x } with h | h
  · left; rw [h]; rfl
  · right; rw [h]; rfl

theorem connected_stays (c : charger_mppt_t) (x : adc_struct_t)
    (hx : sources_present x = true) :
    (charger_task_cycle { charger_mppt := c, setup_charger := true } x).1.setup_charger
      = true := by
  rw [cycle_connected, charge_flag]
  dsimp only
  simp only [sources_present, Bool.and_eq_true] at hx
  rw [F64.le_eq_false_of_gt hx.1, F64.le_eq_false_of_gt hx.2]
  rfl

theorem connected_run_open (xs : List adc_struct_t) :
    ∀ (st : task_state) (hw : hw_state), st.setup_charger = true → hw.path_open →
      (∀ y ∈ xs, sources_present y = true) →
      (charger_run st xs).setup_charger = true ∧ (hw_run hw st xs).path_open := by
  induction xs with
  | nil => intro st hw hc ho _; exact ⟨hc, ho⟩
  | cons y ys ih =>
    intro st hw hc ho hy
    obtain ⟨c, b⟩ := st
    dsimp only at hc
    subst hc
    have hs := connected_stays c y (hy y (List.mem_cons_self y ys))
    have hopen : ((charger_task_cycle { charger_mppt := c, setup_charger := true } y).2.foldl
        hw_exec hw).path_open := by
      rcases connected_cmds c y with h | h
      · rw [h]; exact ho
      · rw [h]; exact ⟨rfl, rfl⟩
    have := ih (charger_task_cycle { charger_mppt := c, setup_charger := true } y).1 _ hs hopen
      (fun z hz => hy z (List.mem_cons_of_mem y hz))
    simpa only [charger_run, hw_run, charger_trace, List.foldl_append] using this

/-- C10 (as stated, refuted): from the connected state `st_connected` the float-region sample
`v_solar = 12.0, v_bat = 13.0, i_bat = 0.05` takes the float branch and opens the power path,
and in the same cycle clears the flag because `v_solar <= 13.0`. The next sample has
`v_solar > 13.0` and `v_bat > 11.0`, so that cycle takes the disconnected branch, connects again
and closes the power path. -/
theorem float_with_low_solar_reconnects_and_closes_path :
    st_connected.setup_charger = true ∧
    (F64.ge sample_float_no_solar.v_bat (F64.lit (129 / 10)) = true ∧
      F64.le sample_float_no_solar.i_bat (F64.lit (1 / 10)) = true) ∧
    (charger_task_cycle st_connected sample_float_no_solar).2 =
      [Cmd.gpio_set_level Pin.RELAY 0, Cmd.gpio_set_level Pin.MPPT_EN 0,
        Cmd.ledc_set_duty 871, Cmd.ledc_update_duty] ∧
    (charger_task_cycle st_connected sample_float_no_solar).1.setup_charger = false ∧
    (hw_run hw_init task_init [sample_connect, sample_float_no_solar]).path_open ∧
    (F64.gt sample_float.v_solar (F64.fin 13) = true ∧
      F64.gt sample_float.v_bat (F64.fin 11) = true) ∧
    (hw_run hw_init task_init
      [sample_connect, sample_float_no_solar, sample_float]).path_closed ∧
    ¬ (hw_run hw_init task_init
      [sample_connect, sample_float_no_solar, sample_float]).path_open :=
  ⟨by decide!, ⟨by decide!, by decide!⟩, by decide!, by decide!, ⟨by decide!, by decide!⟩,
    ⟨by decide!, by decide!⟩, ⟨by decide!, by decide!⟩,
    fun h => absurd h.1 (by decide!)⟩

/-- C10 (amended): a cycle that starts connected never switches the power path on: every
`gpio_set_level` it issues has level 0, and the two pins are afterwards either as before or both
off. A `gpio_set_level` with a level other than 0 is issued only by a cycle that starts
disconnected and ends connected. Hence, when a float-region cycle (`v_bat >= 12.9`,
`i_bat <= 0.1`) from a reachable connected state has a sample with `v_solar > 13.0` and
`v_bat > 11.0` itself, it opens the power path and leaves the controller connected, and the path
is still open (and the controller still connected) after any further samples that all have
`v_solar > 13.0` and `v_bat > 11.0`, whatever their battery voltage and current. The same holds
from any connected state whose power path is open. -/
theorem connected_cycle_never_closes_path (st st0 : task_state) (x xf : adc_struct_t)
    (xs : List adc_struct_t) (hw : hw_state) (hc : st.setup_charger = true) :
    (∀ p l, Cmd.gpio_set_level p l ∈ (charger_task_cycle st x).2 → l = 0) ∧
    ((((charger_task_cycle st x).2.foldl hw_exec hw).relay = hw.relay ∧
        ((charger_task_cycle st x).2.foldl hw_exec hw).mppt_en = hw.mppt_en) ∨
      ((charger_task_cycle st x).2.foldl hw_exec hw).path_open) ∧
    (∀ p l, Cmd.gpio_set_level p l ∈ (charger_task_cycle st0 x).2 → l ≠ 0 →
      st0.setup_charger = false ∧ (charger_task_cycle st0 x).1.setup_charger = true) ∧
    (Reachable st →
      F64.ge xf.v_bat (F64.lit (129 / 10)) = true → F64.le xf.i_bat (F64.lit (1 / 10)) = true →
      (F64.gt xf.v_solar (F64.fin 13) = true ∧ F64.gt xf.v_bat (F64.fin 11) = true) →
      (∀ y ∈ xs, F64.gt y.v_solar (F64.fin 13) = true ∧ F64.gt y.v_bat (F64.fin 11) = true) →
      ((charger_task_cycle st xf).2.foldl hw_exec hw).path_open ∧
        (charger_task_cycle st xf).1.setup_charger = true ∧
        (charger_run (charger_task_cycle st xf).1 xs).setup_charger = true ∧
        (hw_run ((charger_task_cycle st xf).2.foldl hw_exec hw)
          (charger_task_cycle st xf).1 xs).path_open ∧
        (charger_run st (xf :: xs)).setup_charger = true ∧
        (hw_run hw st (xf :: xs)).path_open) ∧
    (hw.path_open →
      (∀ y ∈ xs, F64.gt y.v_solar (F64.fin 13) = true ∧ F64.gt y.v_bat (F64.fin 11) = true) →
      (charger_run st xs).setup_charger = true ∧ (hw_run hw st xs).path_open) := by
  have hconn : ∀ (c : charger_mppt_t) (p : Pin) (l : ℤ),
      Cmd.gpio_set_level p l ∈
        (charger_task_cycle { charger_mppt := c, setup_charger := true } x).2 → l = 0 := by
    intro c p l hm
    rcases connected_cmds c x with h | h
    · rw [h] at hm; simp at hm
    · rw [h] at hm
      simp only [List.mem_cons, Cmd.gpio_set_level.injEq, reduceCtorEq, List.mem_singleton,
        List.not_mem_nil, or_false, false_or] at hm
      rcases hm with hm | hm <;> exact hm.2
  have hpres : ∀ y : adc_struct_t,
      (F64.gt y.v_solar (F64.fin 13) = true ∧ F64.gt y.v_bat (F64.fin 11) = true) →
      sources_present y = true := by
    intro y hy
    simp only [sources_present, lit_13, lit_11, hy.1, hy.2, Bool.and_self]
  refine ⟨?_, ?_, ?_, ?_, ?_⟩
  · obtain ⟨c, b⟩ := st
    dsimp only at hc
    subst hc
    exact hconn c
  · obtain ⟨c, b⟩ := st
    dsimp only at hc
    subst hc
    rcases connected_cmds c x with h | h
    · left; rw [h]; exact ⟨rfl, rfl⟩
    · right; rw [h]; exact ⟨rfl, rfl⟩
  · intro p l hm hl
    obtain ⟨c0, b0⟩ := st0
    cases b0
    · rw [cycle_disconnected] at hm ⊢
      split_ifs at hm ⊢ with hs
      · exact ⟨rfl, rfl⟩
      · simp at hm
    · exact absurd (hconn c0 p l hm) hl
  · intro hr hv hi hxf hy
    have hI := inv_reachable hr
    obtain ⟨c, b⟩ := st
    dsimp only at hc
    subst hc
    have h3 := hI.i_float
    have h4 := hI.v_cccv
    dsimp only at h3 h4
    have hreg : charger_regulate { c with adc_val := xf } =
        ({ c with adc_val := xf }, switch_source 0) :=
      regulate_float _ (by dsimp only; rw [h4]; exact hv) (by dsimp only; rw [h3]; exact hi)
    have hopen : ((charger_task_cycle { charger_mppt := c, setup_charger := true } xf).2.foldl
        hw_exec hw).path_open := by
      rw [cycle_connected, charge_cmds, hreg]
      exact ⟨rfl, rfl⟩
    have hstay := connected_stays c xf (hpres xf hxf)
    have hrun := connected_run_open xs _ _ hstay hopen (fun y hm => hpres y (hy y hm))
    refine ⟨hopen, hstay, hrun.1, hrun.2, hrun.1, ?_⟩
    have h2 := hrun.2
    simpa only [hw_run, charger_trace, List.foldl_append] using h2
  · intro ho hy
    exact connected_run_open xs st hw hc ho (fun y hm => hpres y (hy y hm))

theorem connected_cycle_never_closes_path_witness :
    (charger_run st_connected
        [sample_float, sample_bulk, sample_overcurrent, sample_bulk]).setup_charger = true ∧
      (hw_run ((charger_task_cycle task_init sample_connect).2.foldl hw_exec hw_init)
        st_connected [sample_float, sample_bulk, sample_overcurrent, sample_bulk]).path_open :=
  ⟨((connected_cycle_never_closes_path st_connected task_init sample_bulk sample_float
      [sample_bulk, sample_overcurrent, sample_bulk]
      ((charger_task_cycle task_init sample_connect).2.foldl hw_exec hw_init)
      (by decide!)).2.2.2.1 reachable_connected (by decide!) (by decide!)
      ⟨by decide!, by decide!⟩ (by decide!)).2.2.2.2.1,
    ((connected_cycle_never_closes_path st_connected task_init sample_bulk sample_float
      [sample_bulk, sample_overcurrent, sample_bulk]
      ((charger_task_cycle task_init sample_connect).2.foldl hw_exec hw_init)
      (by decide!)).2.2.2.1 reachable_connected (by decide!) (by decide!)
      ⟨by decide!, by decide!⟩ (by decide!)).2.2.2.2.2⟩

/-! ## C11: a repeated bulk-region sample -/

theorem charger_run_replicate_succ (x : adc_struct_t) (n : ℕ) :
    ∀ st, charger_run st (List.replicate (n + 1) x) =
      (charger_task_cycle (charger_run st (List.replicate n x)) x).1 := by
  induction n with
  | zero => intro st; rfl
  | succ n ih =>
    intro st
    rw [List.replicate_succ, charger_run, ih, List.replicate_succ, charger_run]

theorem bulk_cycle_fields (st : task_state) (x : adc_struct_t) (hI : Inv st)
    (hc : st.setup_charger = true)
    (hv : F64.lt x.v_bat (F64.lit (129 / 10)) = true)
    (hi : F64.le x.i_bat (F64.lit (15 / 10)) = true) :
    (charger_task_cycle st x).1.charger_mppt.pre_duty = st.charger_mppt.cur_duty ∧
      (charger_task_cycle st x).1.charger_mppt.pre_power_solar = F64.mul x.v_solar x.i_solar ∧
      (charger_task_cycle st x).1.charger_mppt.cur_duty =
        max 409 (min 920
          (if F64.ge (F64.sub (F64.mul x.v_solar x.i_solar) st.charger_mppt.pre_power_solar)
              (F64.fin 0) = true then
            (if 0 ≤ st.charger_mppt.cur_duty - st.charger_mppt.pre_duty then
              st.charger_mppt.cur_duty + 1 else st.charger_mppt.cur_duty - 1)
          else
            (if 0 ≤ st.charger_mppt.cur_duty - st.charger_mppt.pre_duty then
              st.charger_mppt.cur_duty - 1 else st.charger_mppt.cur_duty + 1))) := by
  obtain ⟨c, b⟩ := st
  dsimp only at hc ⊢
  subst hc
  have hcur := hI.connected rfl
  have hpre := hI.pre_duty
  have h1 := hI.min_duty
  have h2 := hI.max_duty
  have h4 := hI.v_cccv
  have h5 := hI.i_cccv
  dsimp only at hcur hpre h1 h2 h4 h5
  have hreg : charger_regulate { c with adc_val := x } =
      (mppt_algorithm { c with adc_val := x }, []) :=
    regulate_bulk _ (by dsimp only; rw [h4]; exact F64.ge_eq_false_of_lt hv)
      (by dsimp only; rw [h5]; exact hi)
  have hD : wrap32 (c.cur_duty - c.pre_duty) = c.cur_duty - c.pre_duty :=
    wrap32_eq (by omega) (by omega)
  have hup : wrap32 (c.cur_duty + 1) = c.cur_duty + 1 := wrap32_eq (by omega) (by omega)
  have hdn : wrap32 (c.cur_duty - 1) = c.cur_duty - 1 := wrap32_eq (by omega) (by omega)
  refine ⟨?_, ?_, ?_⟩
  · rw [cycle_connected, charge_state, hreg, clamp_duty_pre_duty, mppt_algorithm_pre_duty]
  · rw [cycle_connected, charge_state, hreg, clamp_duty_pre_power_solar, mppt_algorithm_eq]
  · rw [cycle_connected, charge_state, hreg,
      clamp_duty_cur_duty _ (by rw [mppt_algorithm_min_duty]; exact h1)
        (by rw [mppt_algorithm_max_duty]; exact h2),
      mppt_algorithm_cur_duty]
    dsimp only
    rw [hD, hup, hdn, ofInt_0]

theorem settle_rank_nonneg (st : task_state) (hI : Inv st) (hc : st.setup_charger = true) :
    0 ≤ settle_rank st.charger_mppt := by
  have hcur := hI.connected hc
  unfold settle_rank
  split_ifs <;> omega

theorem settle_rank_zero (st : task_state) (hI : Inv st) (hc : st.setup_charger = true)
    (h : settle_rank st.charger_mppt = 0) :
    st.charger_mppt.cur_duty = 920 ∧ st.charger_mppt.pre_duty ≤ st.charger_mppt.cur_duty := by
  have hcur := hI.connected hc
  unfold settle_rank at h
  split_ifs at h with hd
  · exact ⟨by omega, hd⟩
  · omega

theorem steady_cycle (st : task_state) (x : adc_struct_t) (hs : Steady x st)
    (hp : sources_present x = true)
    (hv : F64.lt x.v_bat (F64.lit (129 / 10)) = true)
    (hi : F64.le x.i_bat (F64.lit (15 / 10)) = true)
    (hf : (F64.mul x.v_solar x.i_solar).isFinite = true) :
    Steady x (charger_task_cycle st x).1 ∧
      settle_rank (charger_task_cycle st x).1.charger_mppt =
        max 0 (settle_rank st.charger_mppt - 1) := by
  obtain ⟨hI, hc, hpow⟩ := hs
  have hcur := hI.connected hc
  obtain ⟨hpre', hpow', hcur'⟩ := bulk_cycle_fields st x hI hc hv hi
  have hdelta : F64.sub (F64.mul x.v_solar x.i_solar) st.charger_mppt.pre_power_solar
      = F64.fin 0 := by
    rw [hpow]
    cases hm : F64.mul x.v_solar x.i_solar with
    | fin q => exact F64.sub_self_fin q
    | pinf => rw [hm] at hf; simp [F64.isFinite] at hf
    | ninf => rw [hm] at hf; simp [F64.isFinite] at hf
    | nan => rw [hm] at hf; simp [F64.isFinite] at hf
  rw [hdelta, if_pos F64.ge_fin_zero] at hcur'
  have hconn : (charger_task_cycle st x).1.setup_charger = true := by
    obtain ⟨c, b⟩ := st
    dsimp only at hc
    subst hc
    exact connected_stays c x hp
  refine ⟨⟨inv_cycle st x hI, hconn, hpow'⟩, ?_⟩
  unfold settle_rank
  rw [hpre', hcur']
  split_ifs <;> omega

theorem steady_run (x : adc_struct_t)
    (hp : sources_present x = true)
    (hv : F64.lt x.v_bat (F64.lit (129 / 10)) = true)
    (hi : F64.le x.i_bat (F64.lit (15 / 10)) = true)
    (hf : (F64.mul x.v_solar x.i_solar).isFinite = true) (st : task_state)
    (hs : Steady x st) (n : ℕ) :
    Steady x (charger_run st (List.replicate n x)) ∧
      settle_rank (charger_run st (List.replicate n x)).charger_mppt =
        max 0 (settle_rank st.charger_mppt - n) := by
  induction n with
  | zero =>
    refine ⟨hs, ?_⟩
    have := settle_rank_nonneg st hs.1 hs.2.1
    simp only [List.replicate_zero, charger_run, Nat.cast_zero, sub_zero]
    omega
  | succ n ih =>
    have h := steady_cycle _ x ih.1 hp hv hi hf
    rw [charger_run_replicate_succ]
    refine ⟨h.1, ?_⟩
    rw [h.2, ih.2]
    push_cast
    omega

theorem first_bulk_cycle (st : task_state) (x : adc_struct_t) (hr : Reachable st)
    (hc : st.setup_charger = true) (hp : sources_present x = true)
    (hv : F64.lt x.v_bat (F64.lit (129 / 10)) = true)
    (hi : F64.le x.i_bat (F64.lit (15 / 10)) = true) :
    Steady x (charger_task_cycle st x).1 ∧
      settle_rank (charger_task_cycle st x).1.charger_mppt ≤ 1022 := by
  have hI := inv_reachable hr
  have hcur := hI.connected hc
  obtain ⟨hpre', hpow', hcur'⟩ := bulk_cycle_fields st x hI hc hv hi
  have hconn : (charger_task_cycle st x).1.setup_charger = true := by
    obtain ⟨c, b⟩ := st
    dsimp only at hc
    subst hc
    exact connected_stays c x hp
  refine ⟨⟨inv_cycle st x hI, hconn, hpow'⟩, ?_⟩
  unfold settle_rank
  rw [hpre', hcur']
  split_ifs <;> omega


theorem F64.sub_self_of_finite {a : F64} (h : a.isFinite = true) :
    F64.sub a a = F64.fin 0 := by
  cases a with
  | fin q => exact F64.sub_self_fin q
  | pinf => simp [F64.isFinite] at h
  | ninf => simp [F64.isFinite] at h
  | nan => simp [F64.isFinite] at h

theorem overflow_cycle (st : task_state)
    (h : Inv st ∧ st.setup_charger = true ∧ st.charger_mppt.pre_power_solar = F64.pinf ∧
      ((st.charger_mppt.cur_duty = 872 ∧ st.charger_mppt.pre_duty = 871) ∨
        (st.charger_mppt.cur_duty = 871 ∧ st.charger_mppt.pre_duty = 872))) :
    Inv (charger_task_cycle st sample_overflow).1 ∧
      (charger_task_cycle st sample_overflow).1.setup_charger = true ∧
      (charger_task_cycle st sample_overflow).1.charger_mppt.pre_power_solar = F64.pinf ∧
      (((charger_task_cycle st sample_overflow).1.charger_mppt.cur_duty = 872 ∧
          (charger_task_cycle st sample_overflow).1.charger_mppt.pre_duty = 871) ∨
        ((charger_task_cycle st sample_overflow).1.charger_mppt.cur_duty = 871 ∧
          (charger_task_cycle st sample_overflow).1.charger_mppt.pre_duty = 872)) := by
  obtain ⟨hI, hc, hpow, hosc⟩ := h
  have hmul : F64.mul sample_overflow.v_solar sample_overflow.i_solar = F64.pinf := by decide!
  obtain ⟨hpre', hpow', hcur'⟩ :=
    bulk_cycle_fields st sample_overflow hI hc (by decide!) (by decide!)
  have hnan : F64.ge (F64.sub F64.pinf F64.pinf) (F64.fin 0) = false := by decide!
  rw [hmul, hpow, hnan] at hcur'
  rw [hmul] at hpow'
  have hconn : (charger_task_cycle st sample_overflow).1.setup_charger = true := by
    obtain ⟨c, b⟩ := st
    dsimp only at hc
    subst hc
    exact connected_stays c sample_overflow (by decide!)
  refine ⟨inv_cycle st sample_overflow hI, hconn, hpow', ?_⟩
  rw [hpre', hcur']
  rcases hosc with ⟨h1, h2⟩ | ⟨h1, h2⟩
  · right; rw [h1, h2]; decide
  · left; rw [h1, h2]; decide

theorem overflow_run (n : ℕ) :
    Inv (charger_run st_connected (List.replicate (n + 1) sample_overflow)) ∧
      (charger_run st_connected (List.replicate (n + 1) sample_overflow)).setup_charger
        = true ∧
      (charger_run st_connected
        (List.replicate (n + 1) sample_overflow)).charger_mppt.pre_power_solar = F64.pinf ∧
      (((charger_run st_connected
            (List.replicate (n + 1) sample_overflow)).charger_mppt.cur_duty = 872 ∧
          (charger_run st_connected
            (List.replicate (n + 1) sample_overflow)).charger_mppt.pre_duty = 871) ∨
        ((charger_run st_connected
            (List.replicate (n + 1) sample_overflow)).charger_mppt.cur_duty = 871 ∧
          (charger_run st_connected
            (List.replicate (n + 1) sample_overflow)).charger_mppt.pre_duty = 872)) := by
  induction n with
  | zero =>
    exact ⟨inv_cycle st_connected sample_overflow (inv_reachable reachable_connected),
      by decide!, by decide!, Or.inl ⟨by decide!, by decide!⟩⟩
  | succ n ih =>
    rw [charger_run_replicate_succ]
    exact overflow_cycle _ ih

/-- C11 (as stated, refuted): `sample_overflow` has finite readings with `v_solar > 13.0`,
`11.0 < v_bat < 12.9` and `i_bat <= 1.5`, but its solar power overflows to infinity. Fed on
every cycle from the connected state `st_connected`, it makes `delta_P` a NaN from the second
cycle on, the `else` branch of the sign test is taken, and `cur_duty` alternates between 872 and
871: it is not 920 after any number of cycles. -/
theorem fixed_sample_power_overflow_oscillates :
    (st_connected = charger_run task_init [sample_connect] ∧
      st_connected.setup_charger = true) ∧
    (sample_overflow.valid = true ∧
      F64.gt sample_overflow.v_solar (F64.fin 13) = true ∧
      F64.gt sample_overflow.v_bat (F64.fin 11) = true ∧
      F64.lt sample_overflow.v_bat (F64.lit (129 / 10)) = true ∧
      F64.le sample_overflow.i_bat (F64.lit (15 / 10)) = true) ∧
    (∀ n : ℕ, 1 ≤ n →
      (charger_run st_connected (List.replicate n sample_overflow)).charger_mppt.cur_duty
          = 872 ∨
        (charger_run st_connected (List.replicate n sample_overflow)).charger_mppt.cur_duty
          = 871) ∧
    ¬ (∃ N : ℕ, N ≤ 1100 ∧ ∀ n : ℕ, N ≤ n →
      (charger_run st_connected (List.replicate n sample_overflow)).charger_mppt.cur_duty
        = 920) := by
  have hosc : ∀ n : ℕ, 1 ≤ n →
      (charger_run st_connected (List.replicate n sample_overflow)).charger_mppt.cur_duty
          = 872 ∨
        (charger_run st_connected (List.replicate n sample_overflow)).charger_mppt.cur_duty
          = 871 := by
    intro n hn
    obtain ⟨m, rfl⟩ : ∃ m, n = m + 1 := ⟨n - 1, by omega⟩
    rcases (overflow_run m).2.2.2 with h | h
    · exact Or.inl h.1
    · exact Or.inr h.1
  refine ⟨⟨rfl, by decide!⟩, ⟨by decide!, by decide!, by decide!, by decide!, by decide!⟩,
    hosc, ?_⟩
  rintro ⟨N, _, hN⟩
  have h920 := hN (N + 1) (by omega)
  rcases hosc (N + 1) (by omega) with h | h <;> omega


/-- C11 (amended): from a reachable connected state, feed on every cycle one fixed sample with
`v_solar > 13.0`, `11.0 < v_bat < 12.9`, `i_bat <= 1.5` and a finite solar power
`v_solar * i_solar`. After 1023 cycles (so after at most 1100), and after every later cycle,
the controller is still connected and `cur_duty` is `max_duty = 920`; there the next step has
`delta_P = 0` and `delta_D >= 0`, raises the duty to 921, and the clamp returns it to 920. -/
theorem fixed_bulk_sample_settles_at_max (st : task_state) (x : adc_struct_t) (n : ℕ)
    (hr : Reachable st) (hc : st.setup_charger = true)
    (hvs : F64.gt x.v_solar (F64.fin 13) = true) (hvb : F64.gt x.v_bat (F64.fin 11) = true)
    (hv : F64.lt x.v_bat (F64.lit (129 / 10)) = true)
    (hi : F64.le x.i_bat (F64.lit (15 / 10)) = true)
    (hf : (F64.mul x.v_solar x.i_solar).isFinite = true) (hn : 1023 ≤ n) :
    (charger_run st (List.replicate n x)).charger_mppt.cur_duty = 920 ∧
      (charger_run st (List.replicate n x)).charger_mppt.max_duty = 920 ∧
      (charger_run st (List.replicate n x)).setup_charger = true ∧
      (mppt_algorithm
        { (charger_run st (List.replicate n x)).charger_mppt with adc_val := x }).delta_P
          = F64.fin 0 ∧
      0 ≤ (mppt_algorithm
        { (charger_run st (List.replicate n x)).charger_mppt with adc_val := x }).delta_D ∧
      (mppt_algorithm
        { (charger_run st (List.replicate n x)).charger_mppt with adc_val := x }).cur_duty
          = 921 ∧
      (charger_run st (List.replicate (n + 1) x)).charger_mppt.cur_duty = 920 := by
  have hp : sources_present x = true := by
    simp only [sources_present, lit_13, lit_11, hvs, hvb, Bool.and_self]
  have main : ∀ k : ℕ, 1022 ≤ k →
      Steady x (charger_run st (List.replicate (k + 1) x)) ∧
        settle_rank (charger_run st (List.replicate (k + 1) x)).charger_mppt = 0 := by
    intro k hk
    obtain ⟨hs1, hr1⟩ := first_bulk_cycle st x hr hc hp hv hi
    have h0 := settle_rank_nonneg _ hs1.1 hs1.2.1
    have hrun := steady_run x hp hv hi hf _ hs1 k
    rw [List.replicate_succ, charger_run]
    refine ⟨hrun.1, ?_⟩
    rw [hrun.2]
    omega
  obtain ⟨m, rfl⟩ : ∃ m, n = m + 1 := ⟨n - 1, by omega⟩
  obtain ⟨⟨hI, hconn, hpow⟩, hrank⟩ := main m (by omega)
  obtain ⟨hcur, hle⟩ := settle_rank_zero _ hI hconn hrank
  have hpre := hI.pre_duty
  have hD : wrap32 ((charger_run st (List.replicate (m + 1) x)).charger_mppt.cur_duty -
      (charger_run st (List.replicate (m + 1) x)).charger_mppt.pre_duty) =
      (charger_run st (List.replicate (m + 1) x)).charger_mppt.cur_duty -
      (charger_run st (List.replicate (m + 1) x)).charger_mppt.pre_duty :=
    wrap32_eq (by omega) (by omega)
  have hdelta : F64.sub (F64.mul x.v_solar x.i_solar)
      (charger_run st (List.replicate (m + 1) x)).charger_mppt.pre_power_solar = F64.fin 0 := by
    rw [hpow]; exact F64.sub_self_of_finite hf
  refine ⟨hcur, hI.max_duty, hconn, ?_, ?_, ?_, ?_⟩
  · rw [mppt_algorithm_eq]; exact hdelta
  · rw [mppt_algorithm_eq]; dsimp only; rw [hD]; omega
  · rw [mppt_algorithm_cur_duty]
    dsimp only
    rw [hdelta, ofInt_0, if_pos F64.ge_fin_zero, hD, if_pos (by omega), hcur]
    decide
  · exact (settle_rank_zero _ (main (m + 1) (by omega)).1.1 (main (m + 1) (by omega)).1.2.1
      (main (m + 1) (by omega)).2).1

theorem fixed_bulk_sample_settles_at_max_witness :
    (charger_run st_connected (List.replicate 1100 sample_bulk)).charger_mppt.cur_duty = 920 ∧
      (charger_run st_connected (List.replicate 1100 sample_bulk)).setup_charger = true :=
  ⟨(fixed_bulk_sample_settles_at_max st_connected sample_bulk 1100 reachable_connected
      (by decide!) (by decide!) (by decide!) (by decide!) (by decide!) (by decide!)
      (by decide)).1,
    (fixed_bulk_sample_settles_at_max st_connected sample_bulk 1100 reachable_connected
      (by decide!) (by decide!) (by decide!) (by decide!) (by decide!) (by decide!)
      (by decide)).2.2.1⟩

end MPPT
